import Mathlib

/-!
SPI module (`app/modules/spi.c`).

A shallow embedding of the Lua-facing SPI module.  A Lua C function of the
module becomes a Lean function from the argument list (the Lua stack at entry)
and the module state to an outcome and the module state afterwards.  The state
holds the table `spi_databits`, the state of the hardware behind the platform
layer and the list of platform calls issued so far.

C integers are `Int`; a conversion to a fixed-width C type is written
explicitly (`toInt32`, `toU32`, `toU16`, `toU8`), and `int` arithmetic wraps
at 32 bits.  The platform layer is a parameter: any hardware state and any
functions on it.

The module never calls `lua_checkstack`, so a function may use the
`LUA_MINSTACK` slots above its arguments that Lua guarantees and no more: a
push beyond them is outside the contract of the C API and ends the call with
no defined outcome.  The slots that the string buffer of the auxiliary library
uses on its own while a string is built are not counted.
-/

namespace Spi

/-! ## Machine integers -/

/-- Value of an integer after conversion to a 32-bit `int`. -/
def toInt32 (x : Int) : Int := (x + 2147483648) % 4294967296 - 2147483648

/-- Value of an integer after conversion to `u32`. -/
def toU32 (x : Int) : Int := x % 4294967296

/-- Value of an integer after conversion to `u16`. -/
def toU16 (x : Int) : Int := x % 65536

/-- Value of an integer after conversion to `u8` (also to `char`, which is
unsigned on the target). -/
def toU8 (x : Int) : Int := x % 256

/-! ## Lua values, errors, outcomes -/

/-- A Lua value as the module can observe it.  `number n` holds the
`lua_Integer` that `luaL_checkinteger` reads from the number (a 32-bit signed
integer on the target).  `string bs` lists the bytes of the string.  `table arr`
lists the elements `t[1] .. t[#t]`; an element is `some n` when
`luaL_checkinteger` reads the integer `n` from it and `none` when it is a value
`luaL_checkinteger` rejects. -/
inductive LuaVal where
  | nil
  | boolean (b : Bool)
  | number (n : Int)
  | string (bs : List Int)
  | table (arr : List (Option Int))
  deriving DecidableEq, Repr

/-- The errors the module raises, one constructor per message. -/
inductive LuaError where
  /-- `MOD_CHECK_ID`: "spi %d does not exist" -/
  | does_not_exist
  /-- `luaL_checkinteger` / `luaL_checklstring`: bad argument `narg` -/
  | bad_argument (narg : Int)
  /-- "wrong arg type" -/
  | wrong_arg_type
  /-- "out of range" -/
  | out_of_range
  /-- "offset out of range" -/
  | offset_out_of_range
  /-- "bitlen out of range" -/
  | bitlen_out_of_range
  /-- "too few args" -/
  | too_few_args
  /-- "data range exceeded > 512 bits" -/
  | data_range_exceeded
  /-- "failed" -/
  | failed
  /-- "cmd_bitlen out of range" -/
  | cmd_bitlen_out_of_range
  /-- "addr_bitlen out of range" -/
  | addr_bitlen_out_of_range
  /-- "mosi_bitlen out of range" -/
  | mosi_bitlen_out_of_range
  /-- "dummy_bitlen out of range" -/
  | dummy_bitlen_out_of_range
  /-- "miso_bitlen out of range" -/
  | miso_bitlen_out_of_range
  deriving DecidableEq, Repr

/-- How a call of a module function ends: it returns values to Lua, it raises
a Lua error, or it uses the Lua C API outside its contract (no defined
continuation). -/
inductive Outcome where
  | ret (vals : List LuaVal)
  | raise (e : LuaError)
  | undefined
  deriving DecidableEq, Repr

/-! ## Platform layer -/

/-- A call to the platform layer, with the arguments as the module computes
them; the data word of `send` and `send_recv` is the one received by the
platform function, whose parameter has the type `u32`. -/
inductive Call where
  | setup (id mode cpol cpha clock_div full_duplex : Int)
  | send (id bitlen data : Int)
  | send_recv (id bitlen data : Int)
  | set_mosi (id offset bitlen data : Int)
  | get_miso (id offset bitlen : Int)
  | transaction (id cmd_bitlen cmd_data addr_bitlen addr_data
      mosi_bitlen dummy_bitlen miso_bitlen : Int)
  deriving DecidableEq, Repr

/-- What the module is compiled and run against and does not contain.  The
platform layer (`platform.h`): the constants it defines and the functions the
module calls, acting on a hardware state `H`; a function with a status result
yields `true` for `PLATFORM_OK`.  And the Lua core's conversion of strings to
integers, which `luaL_checkinteger` applies to a string argument. -/
structure Platform (H : Type) where
  PLATFORM_SPI_MASTER : Int
  PLATFORM_SPI_SLAVE : Int
  PLATFORM_SPI_CPOL_LOW : Int
  PLATFORM_SPI_CPOL_HIGH : Int
  PLATFORM_SPI_CPHA_LOW : Int
  PLATFORM_SPI_CPHA_HIGH : Int
  platform_spi_setup : H → Int → Int → Int → Int → Int → Int → Int × H
  platform_spi_send : H → Int → Int → Int → H
  platform_spi_send_recv : H → Int → Int → Int → Int × H
  platform_spi_set_mosi : H → Int → Int → Int → Int → Bool × H
  platform_spi_get_miso : H → Int → Int → Int → Int × H
  platform_spi_transaction :
    H → Int → Int → Int → Int → Int → Int → Int → Int → Bool × H
  /-- The Lua core's reading of a string as an integer (`lua_tointeger` on a
  string: the conversion to a number, then to `lua_Integer`): `some n` when the
  string spells a number, `none` otherwise. -/
  lua_str2integer : List Int → Option Int

/-- Modelled from the spec: the statically known port count `NUM_SPI`, whose
header is not part of the module; the initialiser of `spi_databits` lists two
ports. -/
def NUM_SPI : Int := 2

/-- Modelled from the spec: `platform_spi_exists`, the test behind
`MOD_CHECK_ID( spi, id )`: the id, taken as unsigned, is within the port
count. -/
def platform_spi_exists (id : Int) : Bool := decide (toU32 id < NUM_SPI)

/-- Module state: the hardware behind the platform layer, the platform calls
issued so far (oldest first) and the table `spi_databits`. -/
structure State (H : Type) where
  hw : H
  calls : List Call
  spi_databits : Int → Int

/-- Initial table `spi_databits = {0, 0}`. -/
def State.init {H : Type} (h : H) : State H :=
  { hw := h, calls := [], spi_databits := fun _ => 0 }

/-! ## Lua auxiliary library -/

/-- `luaL_checkinteger( L, narg )` on the value at `narg` (`none` when the
index is above the top of the stack): a number yields its integer, a string
that spells a number yields the integer the Lua core reads from it, and any
other value is a bad argument. -/
def luaL_checkinteger {H : Type} (P : Platform H) (v : Option LuaVal) (narg : Int) :
    Except LuaError Int :=
  match v with
  | some (LuaVal.number n) => Except.ok n
  | some (LuaVal.string bs) =>
    match P.lua_str2integer bs with
    | some n => Except.ok n
    | none => Except.error (LuaError.bad_argument narg)
  | _ => Except.error (LuaError.bad_argument narg)

/-- `luaL_optinteger( L, narg, d )`. -/
def luaL_optinteger {H : Type} (P : Platform H) (v : Option LuaVal) (narg : Int) (d : Int) :
    Except LuaError Int :=
  match v with
  | none => Except.ok d
  | some LuaVal.nil => Except.ok d
  | some w => luaL_checkinteger P (some w) narg

/-- `lua_pushinteger( L, x )`: the Lua number made of a C value. -/
def lua_pushinteger (x : Int) : LuaVal := LuaVal.number (toInt32 x)

/-- `LUA_MINSTACK` of `lua.h` (Lua 5.1), which is not part of the module: the
number of stack slots above its arguments that a C function may use without
calling `lua_checkstack`. -/
def LUA_MINSTACK : Int := 20

/-- A push by a function whose arguments fill the slots `1 .. tos`: defined
while fewer than `LUA_MINSTACK` slots are in use above the arguments, `none`
otherwise. -/
def lua_push (tos : Int) (stack : List LuaVal) (v : LuaVal) : Option (List LuaVal) :=
  if (stack.length : Int) < tos + LUA_MINSTACK then some (stack ++ [v]) else none

/-! ## `spi_set_mosi` -/

/-- The loop of `spi_set_mosi` over the arguments `argn .. lua_gettop( L )`,
given as the list `rest`. -/
def set_mosi_loop {H : Type} (P : Platform H) (id bitlen : Int) :
    List LuaVal → Int → Int → State H → Outcome × State H
  | [], _, _, s => (Outcome.ret [], s)
  | v :: rest, argn, offset, s =>
    match luaL_checkinteger P (some v) argn with
    | Except.error e => (Outcome.raise e, s)
    | Except.ok d =>
      let data := toU32 d
      if toInt32 (offset + bitlen) > 512 then
        (Outcome.raise LuaError.data_range_exceeded, s)
      else
        let r := P.platform_spi_set_mosi s.hw id offset bitlen data
        let s1 : State H :=
          { s with hw := r.2, calls := s.calls ++ [Call.set_mosi id offset bitlen data] }
        if r.1 then set_mosi_loop P id bitlen rest (argn + 1) (toInt32 (offset + bitlen)) s1
        else (Outcome.raise LuaError.failed, s1)

/-- Lua: `spi.set_mosi( id, offset, bitlen, data1, [data2], ..., [datan] )`. -/
def spi_set_mosi {H : Type} (P : Platform H) (args : List LuaVal) (s : State H) :
    Outcome × State H :=
  match luaL_checkinteger P (args.get? 0) 1 with
  | Except.error e => (Outcome.raise e, s)
  | Except.ok id =>
  match luaL_checkinteger P (args.get? 1) 2 with
  | Except.error e => (Outcome.raise e, s)
  | Except.ok offset =>
  match luaL_checkinteger P (args.get? 2) 3 with
  | Except.error e => (Outcome.raise e, s)
  | Except.ok bitlen =>
    if !platform_spi_exists id then (Outcome.raise LuaError.does_not_exist, s)
    else if offset < 0 ∨ offset > 511 then (Outcome.raise LuaError.offset_out_of_range, s)
    else if bitlen < 1 ∨ bitlen > 32 then (Outcome.raise LuaError.bitlen_out_of_range, s)
    else if args.length < 4 then (Outcome.raise LuaError.too_few_args, s)
    else set_mosi_loop P id bitlen (args.drop 3) 4 offset s

/-! ## `spi_get_miso` -/

/-- The loop of `spi_get_miso`: `n` iterations are left, `i` is the loop
counter and `pushed` the values pushed so far, all above the arguments.  Each
iteration reads a word and pushes it; `none` when the push is beyond the
`LUA_MINSTACK` slots. -/
def get_miso_loop {H : Type} (P : Platform H) (id offset bitlen : Int) :
    Nat → Int → List LuaVal → State H → Option (List LuaVal) × State H
  | 0, _, pushed, s => (some pushed, s)
  | n + 1, i, pushed, s =>
    let off := toInt32 (offset + toInt32 (bitlen * i))
    let r := P.platform_spi_get_miso s.hw id off bitlen
    let s1 : State H := { s with hw := r.2, calls := s.calls ++ [Call.get_miso id off bitlen] }
    if (pushed.length : Int) < LUA_MINSTACK then
      get_miso_loop P id offset bitlen n (i + 1) (pushed ++ [lua_pushinteger r.1]) s1
    else (none, s1)

/-- The end of `spi_get_miso`, `return num`: the values pushed are returned.
A negative `num` is returned as such, which is not a result count the Lua C
API defines. -/
def get_miso_return (num : Int) : Option (List LuaVal) → Outcome
  | none => Outcome.undefined
  | some vals => if num < 0 then Outcome.undefined else Outcome.ret vals

/-- Lua: `data = spi.get_miso( id, offset, bitlen, num )`.  The loop runs for
`i = 0 .. num - 1`, that is `num` times when `num` is positive and not at all
otherwise. -/
def spi_get_miso {H : Type} (P : Platform H) (args : List LuaVal) (s : State H) :
    Outcome × State H :=
  match luaL_checkinteger P (args.get? 0) 1 with
  | Except.error e => (Outcome.raise e, s)
  | Except.ok id =>
  match luaL_checkinteger P (args.get? 1) 2 with
  | Except.error e => (Outcome.raise e, s)
  | Except.ok offset =>
  match luaL_checkinteger P (args.get? 2) 3 with
  | Except.error e => (Outcome.raise e, s)
  | Except.ok bitlen =>
  match luaL_checkinteger P (args.get? 3) 4 with
  | Except.error e => (Outcome.raise e, s)
  | Except.ok num =>
    if !platform_spi_exists id then (Outcome.raise LuaError.does_not_exist, s)
    else if offset < 0 ∨ offset > 511 then (Outcome.raise LuaError.out_of_range, s)
    else if bitlen < 1 ∨ bitlen > 32 then (Outcome.raise LuaError.bitlen_out_of_range, s)
    else if toInt32 (offset + toInt32 (bitlen * num)) > 512 then
      (Outcome.raise LuaError.out_of_range, s)
    else
      let r := get_miso_loop P id offset bitlen num.toNat 0 [] s
      (get_miso_return num r.1, r.2)

/-! ## `spi_transaction` -/

/-- Lua: `spi.transaction( id, cmd_bitlen, cmd_data, addr_bitlen, addr_data,
mosi_bitlen, dummy_bitlen, miso_bitlen )`. -/
def spi_transaction {H : Type} (P : Platform H) (args : List LuaVal) (s : State H) :
    Outcome × State H :=
  match luaL_checkinteger P (args.get? 0) 1 with
  | Except.error e => (Outcome.raise e, s)
  | Except.ok id =>
  match luaL_checkinteger P (args.get? 1) 2 with
  | Except.error e => (Outcome.raise e, s)
  | Except.ok cmd_bitlen =>
  match luaL_checkinteger P (args.get? 2) 3 with
  | Except.error e => (Outcome.raise e, s)
  | Except.ok cmd_arg =>
  match luaL_checkinteger P (args.get? 3) 4 with
  | Except.error e => (Outcome.raise e, s)
  | Except.ok addr_bitlen =>
  match luaL_checkinteger P (args.get? 4) 5 with
  | Except.error e => (Outcome.raise e, s)
  | Except.ok addr_arg =>
  match luaL_checkinteger P (args.get? 5) 6 with
  | Except.error e => (Outcome.raise e, s)
  | Except.ok mosi_bitlen =>
  match luaL_checkinteger P (args.get? 6) 7 with
  | Except.error e => (Outcome.raise e, s)
  | Except.ok dummy_bitlen =>
  match luaL_checkinteger P (args.get? 7) 8 with
  | Except.error e => (Outcome.raise e, s)
  | Except.ok miso_bitlen =>
    let cmd_data := toU16 cmd_arg
    let addr_data := toU32 addr_arg
    if !platform_spi_exists id then (Outcome.raise LuaError.does_not_exist, s)
    else if cmd_bitlen < 0 ∨ cmd_bitlen > 16 then
      (Outcome.raise LuaError.cmd_bitlen_out_of_range, s)
    else if addr_bitlen < 0 ∨ addr_bitlen > 32 then
      (Outcome.raise LuaError.addr_bitlen_out_of_range, s)
    else if mosi_bitlen < 0 ∨ mosi_bitlen > 512 then
      (Outcome.raise LuaError.mosi_bitlen_out_of_range, s)
    else if dummy_bitlen < 0 ∨ dummy_bitlen > 256 then
      (Outcome.raise LuaError.dummy_bitlen_out_of_range, s)
    else if miso_bitlen < 0 ∨ miso_bitlen > 511 then
      (Outcome.raise LuaError.miso_bitlen_out_of_range, s)
    else
      let r := P.platform_spi_transaction s.hw id cmd_bitlen cmd_data addr_bitlen addr_data
        mosi_bitlen dummy_bitlen miso_bitlen
      let s1 : State H :=
        { s with hw := r.2, calls := s.calls ++ [Call.transaction id cmd_bitlen cmd_data
            addr_bitlen addr_data mosi_bitlen dummy_bitlen miso_bitlen] }
      if r.1 then (Outcome.ret [], s1) else (Outcome.raise LuaError.failed, s1)

/-! ## `spi_setup` -/

/-- Lua: `= spi.setup( id, mode, cpol, cpha, databits, clock_div, [full_duplex] )`. -/
def spi_setup {H : Type} (P : Platform H) (args : List LuaVal) (s : State H) :
    Outcome × State H :=
  match luaL_checkinteger P (args.get? 0) 1 with
  | Except.error e => (Outcome.raise e, s)
  | Except.ok id =>
  match luaL_checkinteger P (args.get? 1) 2 with
  | Except.error e => (Outcome.raise e, s)
  | Except.ok mode =>
  match luaL_checkinteger P (args.get? 2) 3 with
  | Except.error e => (Outcome.raise e, s)
  | Except.ok cpol =>
  match luaL_checkinteger P (args.get? 3) 4 with
  | Except.error e => (Outcome.raise e, s)
  | Except.ok cpha =>
  match luaL_checkinteger P (args.get? 4) 5 with
  | Except.error e => (Outcome.raise e, s)
  | Except.ok databits =>
  match luaL_checkinteger P (args.get? 5) 6 with
  | Except.error e => (Outcome.raise e, s)
  | Except.ok clock_arg =>
  match luaL_optinteger P (args.get? 6) 7 1 with
  | Except.error e => (Outcome.raise e, s)
  | Except.ok full_duplex =>
    let clock_div := toU32 clock_arg
    if !platform_spi_exists id then (Outcome.raise LuaError.does_not_exist, s)
    else if mode ≠ P.PLATFORM_SPI_SLAVE ∧ mode ≠ P.PLATFORM_SPI_MASTER then
      (Outcome.raise LuaError.wrong_arg_type, s)
    else if cpol ≠ P.PLATFORM_SPI_CPOL_LOW ∧ cpol ≠ P.PLATFORM_SPI_CPOL_HIGH then
      (Outcome.raise LuaError.wrong_arg_type, s)
    else if cpha ≠ P.PLATFORM_SPI_CPHA_LOW ∧ cpha ≠ P.PLATFORM_SPI_CPHA_HIGH then
      (Outcome.raise LuaError.wrong_arg_type, s)
    else if databits < 0 ∨ databits > 32 then (Outcome.raise LuaError.out_of_range, s)
    else
      let clock_div := if clock_div < 4 then 8 else clock_div
      if full_duplex ≠ 0 ∧ full_duplex ≠ 1 then (Outcome.raise LuaError.out_of_range, s)
      else
        let tbl := Function.update s.spi_databits id (toU8 databits)
        let r := P.platform_spi_setup s.hw id mode cpol cpha clock_div full_duplex
        let s1 : State H :=
          { hw := r.2,
            calls := s.calls ++ [Call.setup id mode cpol cpha clock_div full_duplex],
            spi_databits := tbl }
        (Outcome.ret [lua_pushinteger (toU32 r.1)], s1)

/-! ## `spi_recv` -/

/-- The loop of `spi_recv`: `n` iterations are left and `b` holds the bytes
added to the buffer so far. -/
def recv_loop {H : Type} (P : Platform H) (id dflt : Int) :
    Nat → List Int → State H → List Int × State H
  | 0, b, s => (b, s)
  | n + 1, b, s =>
    let r := P.platform_spi_send_recv s.hw id (s.spi_databits id) (toU32 dflt)
    let s1 : State H :=
      { s with hw := r.2,
               calls := s.calls ++ [Call.send_recv id (s.spi_databits id) (toU32 dflt)] }
    recv_loop P id dflt n (b ++ [toU8 r.1]) s1

/-- Lua: `read = spi.recv( id, size, [default data] )`. -/
def spi_recv {H : Type} (P : Platform H) (args : List LuaVal) (s : State H) :
    Outcome × State H :=
  match luaL_checkinteger P (args.get? 0) 1 with
  | Except.error e => (Outcome.raise e, s)
  | Except.ok id =>
  match luaL_checkinteger P (args.get? 1) 2 with
  | Except.error e => (Outcome.raise e, s)
  | Except.ok size =>
  match luaL_optinteger P (args.get? 2) 3 (toInt32 4294967295) with
  | Except.error e => (Outcome.raise e, s)
  | Except.ok dflt =>
    if !platform_spi_exists id then (Outcome.raise LuaError.does_not_exist, s)
    else if size = 0 then (Outcome.ret [], s)
    else
      let r := recv_loop P id dflt size.toNat [] s
      (Outcome.ret [LuaVal.string r.1], r.2)

/-! ## Lua stack operations used by `spi_generic_send_recv` -/

/-- Position (from the bottom, starting at 0) of the stack slot a Lua index
designates: a positive index counts from the bottom, a negative one from the
top. -/
def index2adr (stack : List LuaVal) (idx : Int) : Option Nat :=
  if 0 < idx ∧ idx ≤ stack.length then some (idx - 1).toNat
  else if idx < 0 ∧ -idx ≤ stack.length then some (stack.length + idx).toNat
  else none

/-- The elements of a table after the raw assignment `t[n] = v`. -/
def table_rawset (arr : List (Option Int)) (n : Int) (v : LuaVal) : List (Option Int) :=
  let e : Option Int := match v with
    | LuaVal.number k => some k
    | _ => none
  if n < 1 then arr
  else if n ≤ arr.length then arr.set (n - 1).toNat e
  else arr ++ List.replicate (n - 1 - arr.length).toNat none ++ [e]

/-- `lua_rawseti( L, idx, n )`: does `t[n] = v` where `t` is the value at index
`idx` and `v` the value at the top of the stack, then pops `v`.  The index is
resolved with `v` still on the stack.  The call is defined only when `t` is a
table; `none` otherwise. -/
def lua_rawseti (stack : List LuaVal) (idx : Int) (n : Int) : Option (List LuaVal) :=
  match index2adr stack idx, stack.getLast? with
  | some p, some v =>
    match stack.get? p with
    | some (LuaVal.table arr) =>
      some ((stack.set p (LuaVal.table (table_rawset arr n v))).dropLast)
    | _ => none
  | _, _ => none

/-- `lua_replace( L, idx )`: moves the top of the stack into the slot at
`idx` and pops it. -/
def lua_replace (stack : List LuaVal) (idx : Int) : Option (List LuaVal) :=
  match index2adr stack idx, stack.getLast? with
  | some p, some v => some ((stack.set p v).dropLast)
  | _, _ => none

/-! ## `spi_generic_send_recv` -/

/-- The loop over the elements of a table argument: `elems` are the elements
`i + 1 .. datalen` still to send.  `lua_rawgeti` pushes the element, which is
read and popped.  Yields the final `i` and the stack, or the outcome that ends
the call. -/
def table_loop {H : Type} (P : Platform H) (id recv tos : Int) :
    List (Option Int) → Int → List LuaVal → State H →
    Except Outcome (Int × List LuaVal) × State H
  | [], i, stack, s => (Except.ok (i, stack), s)
  | e :: elems, i, stack, s =>
    match lua_push tos stack LuaVal.nil with
    | none => (Except.error Outcome.undefined, s)
    | some _ =>
      match luaL_checkinteger P (e.map LuaVal.number) (-1) with
      | Except.error err => (Except.error (Outcome.raise err), s)
      | Except.ok n =>
        let numdata := toU32 n
        if recv > 0 then
          let r := P.platform_spi_send_recv s.hw id (s.spi_databits id) numdata
          let s1 : State H :=
            { s with hw := r.2,
                     calls := s.calls ++ [Call.send_recv id (s.spi_databits id) numdata] }
          match lua_push tos stack (lua_pushinteger r.1) with
          | none => (Except.error Outcome.undefined, s1)
          | some stack0 =>
            match lua_rawseti stack0 (-1) (i + 1) with
            | none => (Except.error Outcome.undefined, s1)
            | some stack1 => table_loop P id recv tos elems (i + 1) stack1 s1
        else
          let s1 : State H :=
            { s with hw := P.platform_spi_send s.hw id (s.spi_databits id) numdata,
                     calls := s.calls ++ [Call.send id (s.spi_databits id) numdata] }
          table_loop P id recv tos elems (i + 1) stack s1

/-- The loop over the bytes of a string argument: `bytes` are the bytes
`pdata[i ..]` still to send and `b` the contents of the buffer.  Yields the
final `i` and the buffer. -/
def string_loop {H : Type} (P : Platform H) (id recv : Int) :
    List Int → Int → List Int → State H → (Int × List Int) × State H
  | [], i, b, s => ((i, b), s)
  | c :: bytes, i, b, s =>
    if recv > 0 then
      let r := P.platform_spi_send_recv s.hw id (s.spi_databits id) (toU32 (toU8 c))
      let s1 : State H :=
        { s with hw := r.2,
                 calls := s.calls ++ [Call.send_recv id (s.spi_databits id) (toU32 (toU8 c))] }
      string_loop P id recv bytes (i + 1) (b ++ [toU8 r.1]) s1
    else
      let s1 : State H :=
        { s with hw := P.platform_spi_send s.hw id (s.spi_databits id) (toU32 (toU8 c)),
                 calls := s.calls ++ [Call.send id (s.spi_databits id) (toU32 (toU8 c))] }
      string_loop P id recv bytes (i + 1) b s1

/-- The end of `spi_generic_send_recv`: `wrote` is pushed and replaces the slot
at `tos + 1`, and the top `pushed` values are returned. -/
def send_recv_finish {H : Type} (tos : Int) (stack : List LuaVal) (pushed wrote : Int)
    (s : State H) : Outcome × State H :=
  match lua_push tos stack (lua_pushinteger wrote) with
  | none => (Outcome.undefined, s)
  | some stack0 =>
    match lua_replace stack0 (tos + 1) with
    | none => (Outcome.undefined, s)
    | some stack1 => (Outcome.ret (stack1.drop (stack1.length - pushed.toNat)), s)

/-- The loop of `spi_generic_send_recv` over the arguments
`argn .. tos`, given as the list `items`. -/
def items_loop {H : Type} (P : Platform H) (id recv tos : Int) :
    List LuaVal → Int → List LuaVal → Int → Int → State H → Outcome × State H
  | [], _, stack, pushed, wrote, s => send_recv_finish tos stack pushed wrote s
  | LuaVal.number n :: items, argn, stack, pushed, wrote, s =>
    let numdata := toU32 n
    if recv > 0 then
      let r := P.platform_spi_send_recv s.hw id (s.spi_databits id) numdata
      let s1 : State H :=
        { s with hw := r.2,
                 calls := s.calls ++ [Call.send_recv id (s.spi_databits id) numdata] }
      match lua_push tos stack (lua_pushinteger r.1) with
      | none => (Outcome.undefined, s1)
      | some stack1 =>
        items_loop P id recv tos items (argn + 1) stack1 (toInt32 (pushed + 1))
          (toU32 (wrote + 1)) s1
    else
      let s1 : State H :=
        { s with hw := P.platform_spi_send s.hw id (s.spi_databits id) numdata,
                 calls := s.calls ++ [Call.send id (s.spi_databits id) numdata] }
      items_loop P id recv tos items (argn + 1) stack pushed (toU32 (wrote + 1)) s1
  | LuaVal.table arr :: items, argn, stack, pushed, wrote, s =>
    let datalen : Int := arr.length
    let created := decide (recv > 0 ∧ datalen > 0)
    match (if created then lua_push tos stack (LuaVal.table []) else some stack) with
    | none => (Outcome.undefined, s)
    | some stack0 =>
      let pushed0 := if created then toInt32 (pushed + 1) else pushed
      match table_loop P id recv tos arr 0 stack0 s with
      | (Except.error o, s1) => (o, s1)
      | (Except.ok (i, stack1), s1) =>
        let wrote1 := toU32 (wrote + i)
        if i < datalen then send_recv_finish tos stack1 pushed0 wrote1 s1
        else items_loop P id recv tos items (argn + 1) stack1 pushed0 wrote1 s1
  | LuaVal.string bs :: items, argn, stack, pushed, wrote, s =>
    let datalen : Int := bs.length
    match string_loop P id recv bs 0 [] s with
    | ((i, b), s1) =>
      let produced := decide (recv > 0 ∧ datalen > 0)
      match (if produced then lua_push tos stack (LuaVal.string b) else some stack) with
      | none => (Outcome.undefined, s1)
      | some stack1 =>
        let pushed1 := if produced then toInt32 (pushed + 1) else pushed
        let wrote1 := toU32 (wrote + i)
        if i < datalen then send_recv_finish tos stack1 pushed1 wrote1 s1
        else items_loop P id recv tos items (argn + 1) stack1 pushed1 wrote1 s1
  | _ :: _, argn, _, _, _, s => (Outcome.raise (LuaError.bad_argument argn), s)

/-- The body shared by `spi.send` (`recv = 0`) and `spi.send_recv`
(`recv = 1`).  The first push, of the slot of `wrote`, is within the
guaranteed slots. -/
def spi_generic_send_recv {H : Type} (P : Platform H) (args : List LuaVal) (recv : Int)
    (s : State H) : Outcome × State H :=
  match luaL_checkinteger P (args.get? 0) 1 with
  | Except.error e => (Outcome.raise e, s)
  | Except.ok id0 =>
    let id := toU32 id0
    let tos : Int := args.length
    if !platform_spi_exists id then (Outcome.raise LuaError.does_not_exist, s)
    else if tos < 2 then (Outcome.raise LuaError.wrong_arg_type, s)
    else items_loop P id recv tos (args.drop 1) 2 (args ++ [lua_pushinteger 0]) 1 0 s

/-- Lua: `wrote = spi.send( id, data1, [data2], ..., [datan] )`. -/
def spi_send {H : Type} (P : Platform H) (args : List LuaVal) (s : State H) :
    Outcome × State H :=
  spi_generic_send_recv P args 0 s

/-- Lua: `wrote, [data1], ..., [datan] = spi.send_recv( id, data1, [data2], ..., [datan] )`. -/
def spi_send_recv {H : Type} (P : Platform H) (args : List LuaVal) (s : State H) :
    Outcome × State H :=
  spi_generic_send_recv P args 1 s

/-! ## The module function map -/

/-- A call of one of the functions registered in `spi_map`, with its
arguments. -/
inductive Op where
  | setup (args : List LuaVal)
  | send (args : List LuaVal)
  | send_recv (args : List LuaVal)
  | recv (args : List LuaVal)
  | set_mosi (args : List LuaVal)
  | get_miso (args : List LuaVal)
  | transaction (args : List LuaVal)
  deriving DecidableEq, Repr

/-- Dispatch of a call through `spi_map`. -/
def spi_map {H : Type} (P : Platform H) (op : Op) (s : State H) : Outcome × State H :=
  match op with
  | Op.setup args => spi_setup P args s
  | Op.send args => spi_send P args s
  | Op.send_recv args => spi_send_recv P args s
  | Op.recv args => spi_recv P args s
  | Op.set_mosi args => spi_set_mosi P args s
  | Op.get_miso args => spi_get_miso P args s
  | Op.transaction args => spi_transaction P args s

/-- The state after a sequence of calls, each starting in the state the
previous one left, whatever its outcome. -/
def run {H : Type} (P : Platform H) : List Op → State H → State H
  | [], s => s
  | op :: ops, s => run P ops (spi_map P op s).2

/-! ## Reference descriptions used to state the properties -/

/-- Whether the platform reports ok for each of the writes of `vals`, issued
in order at consecutive `bitlen`-wide windows from `offset`, starting with the
hardware in state `h`. -/
def mosi_ok {H : Type} (P : Platform H) (id bitlen : Int) : List Int → Int → H → Bool
  | [], _, _ => true
  | v :: vs, offset, h =>
    (P.platform_spi_set_mosi h id offset bitlen (toU32 v)).1 &&
      mosi_ok P id bitlen vs (offset + bitlen)
        (P.platform_spi_set_mosi h id offset bitlen (toU32 v)).2

/-- The hardware state after the writes of `vals`, issued in order at
consecutive `bitlen`-wide windows from `offset`. -/
def mosi_hw {H : Type} (P : Platform H) (id bitlen : Int) : List Int → Int → H → H
  | [], _, h => h
  | v :: vs, offset, h =>
    mosi_hw P id bitlen vs (offset + bitlen)
      (P.platform_spi_set_mosi h id offset bitlen (toU32 v)).2

/-- The words the platform returns for `n` reads at consecutive `bitlen`-wide
windows from `offset`, starting with the hardware in state `h`. -/
def miso_reads {H : Type} (P : Platform H) (id bitlen : Int) : Nat → Int → H → List Int
  | 0, _, _ => []
  | n + 1, offset, h =>
    (P.platform_spi_get_miso h id offset bitlen).1 ::
      miso_reads P id bitlen n (offset + bitlen) (P.platform_spi_get_miso h id offset bitlen).2

/-- The hardware state after `n` reads at consecutive windows from `offset`. -/
def miso_hw {H : Type} (P : Platform H) (id bitlen : Int) : Nat → Int → H → H
  | 0, _, h => h
  | n + 1, offset, h =>
    miso_hw P id bitlen n (offset + bitlen) (P.platform_spi_get_miso h id offset bitlen).2

/-! ## Platforms used as instances -/

/-- A reading of strings as integers for the instances below: a string of
decimal digits is read as its value, any other string spells no number. -/
def decimal_str2integer (bs : List Int) : Option Int :=
  if bs ≠ [] ∧ bs.all (fun c => decide (48 ≤ c ∧ c ≤ 57)) = true then
    some (bs.foldl (fun acc c => acc * 10 + (c - 48)) 0)
  else none

/-- A platform without state: every operation is accepted, `setup` reports the
divider it was given, `send_recv` echoes the word it was given and `get_miso`
reports the offset it was asked for. -/
def loopback : Platform Unit where
  PLATFORM_SPI_MASTER := 1
  PLATFORM_SPI_SLAVE := 0
  PLATFORM_SPI_CPOL_LOW := 0
  PLATFORM_SPI_CPOL_HIGH := 1
  PLATFORM_SPI_CPHA_LOW := 0
  PLATFORM_SPI_CPHA_HIGH := 1
  platform_spi_setup := fun h _ _ _ _ clock_div _ => (clock_div, h)
  platform_spi_send := fun h _ _ _ => h
  platform_spi_send_recv := fun h _ _ data => (data, h)
  platform_spi_set_mosi := fun h _ _ _ _ => (true, h)
  platform_spi_get_miso := fun h _ offset _ => (offset, h)
  platform_spi_transaction := fun h _ _ _ _ _ _ _ _ => (true, h)
  lua_str2integer := decimal_str2integer

/-- A platform whose state is the number of buffer writes and transactions it
still accepts: each accepted one uses one up, and once none is left the
operation is reported as failed. -/
def budget : Platform Nat where
  PLATFORM_SPI_MASTER := 1
  PLATFORM_SPI_SLAVE := 0
  PLATFORM_SPI_CPOL_LOW := 0
  PLATFORM_SPI_CPOL_HIGH := 1
  PLATFORM_SPI_CPHA_LOW := 0
  PLATFORM_SPI_CPHA_HIGH := 1
  platform_spi_setup := fun h _ _ _ _ clock_div _ => (clock_div + 1, h)
  platform_spi_send := fun h _ _ _ => h
  platform_spi_send_recv := fun h _ _ data => (data + 1, h)
  platform_spi_set_mosi := fun h _ _ _ _ => (decide (0 < h), h - 1)
  platform_spi_get_miso := fun h _ _ _ => (h, h)
  platform_spi_transaction := fun h _ _ _ _ _ _ _ _ => (decide (0 < h), h - 1)
  lua_str2integer := decimal_str2integer

/-- Modelled from the spec: the contents of the 512-bit buffer after the field
of `bitlen` bits at bit `offset` has been set to the low `bitlen` bits of
`data`; the buffer is the number whose bit `k` is bit `k` of the buffer. -/
def bitbuf_set (buf offset bitlen data : Nat) : Nat :=
  buf % 2 ^ offset + (data % 2 ^ bitlen) * 2 ^ offset
    + (buf / 2 ^ (offset + bitlen)) * 2 ^ (offset + bitlen)

/-- Modelled from the spec: the field of `bitlen` bits at bit `offset` of the
buffer. -/
def bitbuf_get (buf offset bitlen : Nat) : Nat := (buf / 2 ^ offset) % 2 ^ bitlen

/-- Modelled from the spec: the Bus Primitive's bit-buffer operations, which
are not part of the module.  The hardware state is one 512-bit buffer per
port; `set_mosi_bits` stores a field and reports ok when the field lies within
the buffer, and fails without effect otherwise; `get_miso_bits` reads a field.
The other operations leave the buffers alone. -/
def bitbuffer : Platform (Int → Nat) where
  PLATFORM_SPI_MASTER := 1
  PLATFORM_SPI_SLAVE := 0
  PLATFORM_SPI_CPOL_LOW := 0
  PLATFORM_SPI_CPOL_HIGH := 1
  PLATFORM_SPI_CPHA_LOW := 0
  PLATFORM_SPI_CPHA_HIGH := 1
  platform_spi_setup := fun h _ _ _ _ clock_div _ => (clock_div, h)
  platform_spi_send := fun h _ _ _ => h
  platform_spi_send_recv := fun h _ _ data => (data, h)
  platform_spi_set_mosi := fun h id offset bitlen data =>
    if 0 ≤ offset ∧ 1 ≤ bitlen ∧ bitlen ≤ 32 ∧ offset + bitlen ≤ 512 then
      (true, Function.update h id (bitbuf_set (h id) offset.toNat bitlen.toNat data.toNat))
    else (false, h)
  platform_spi_get_miso := fun h id offset bitlen =>
    ((bitbuf_get (h id) offset.toNat bitlen.toNat : Nat), h)
  platform_spi_transaction := fun h _ _ _ _ _ _ _ _ => (true, h)
  lua_str2integer := decimal_str2integer

/-- The argument list of `spi.set_mosi( id, offset, bitlen, v1, ..., vn )`. -/
def set_mosi_args (id offset bitlen : Int) (vals : List Int) : List LuaVal :=
  LuaVal.number id :: LuaVal.number offset :: LuaVal.number bitlen :: vals.map LuaVal.number

/-- The writes `set_mosi( id, offset + k * bitlen, bitlen, vals[k] )` for
`k = first, first + 1, ...` over the values of `vals`, in order. -/
def mosi_writes (id offset bitlen : Int) (first : Nat) (vals : List Int) : List Call :=
  (vals.enumFrom first).map
    (fun kv => Call.set_mosi id (offset + (kv.1 : Int) * bitlen) bitlen (toU32 kv.2))

/-- The argument list of `spi.setup( id, mode, cpol, cpha, databits,
clock_div, [full_duplex] )`; the last argument may be left out. -/
def setup_args (id mode cpol cpha databits clock_div : Int) (full_duplex : Option Int) :
    List LuaVal :=
  [LuaVal.number id, LuaVal.number mode, LuaVal.number cpol, LuaVal.number cpha,
    LuaVal.number databits, LuaVal.number clock_div]
    ++ (match full_duplex with
        | none => []
        | some f => [LuaVal.number f])

/-- The argument list of `spi.transaction( id, cmd_bitlen, cmd_data,
addr_bitlen, addr_data, mosi_bitlen, dummy_bitlen, miso_bitlen )`. -/
def transaction_args (id cmd_bitlen cmd_data addr_bitlen addr_data mosi_bitlen dummy_bitlen
    miso_bitlen : Int) : List LuaVal :=
  [LuaVal.number id, LuaVal.number cmd_bitlen, LuaVal.number cmd_data,
    LuaVal.number addr_bitlen, LuaVal.number addr_data, LuaVal.number mosi_bitlen,
    LuaVal.number dummy_bitlen, LuaVal.number miso_bitlen]

/-- A call that streams one unit on port `id` with width `w`. -/
def is_stream_call (id w : Int) (c : Call) : Prop :=
  ∃ d, c = Call.send id w d ∨ c = Call.send_recv id w d

/-- State `s1` is reached from `s` by streaming units on port `id`, each with
the width stored for `id`, and nothing else: the table `spi_databits` is the
same and the trace has grown by stream calls only. -/
def Streamed {H : Type} (id : Int) (s s1 : State H) : Prop :=
  s1.spi_databits = s.spi_databits ∧
  ∃ new, s1.calls = s.calls ++ new ∧ ∀ c ∈ new, is_stream_call id (s.spi_databits id) c

/-- Every unit streamed by the calls of `new` has the width that the table
`tbl` holds for its port. -/
def width_respected (tbl : Int → Int) (new : List Call) : Prop :=
  ∀ c ∈ new, ∀ i w d, (c = Call.send i w d ∨ c = Call.send_recv i w d) → w = tbl i

/-- The call `op` is a `spi.setup` whose first argument is read as the port
`id` (`int id = luaL_checkinteger( L, 1 )`). -/
def configures {H : Type} (P : Platform H) (id : Int) : Op → Prop
  | Op.setup args => luaL_checkinteger P (args.get? 0) 1 = Except.ok id
  | _ => False

/-- The argument list of `spi.recv( id, size, [default data] )`; the last
argument may be left out. -/
def recv_args (id size : Int) (dflt : Option Int) : List LuaVal :=
  [LuaVal.number id, LuaVal.number size]
    ++ (match dflt with
        | none => []
        | some d => [LuaVal.number d])

/-- The outgoing word of `spi.recv`: the default data as an unsigned 32-bit
word, 0xFFFFFFFF when the argument is left out. -/
def recv_word (dflt : Option Int) : Int :=
  match dflt with
  | none => 4294967295
  | some d => toU32 d

/-- The words the platform echoes for `n` units with the same outgoing `word`
and width `w` on port `id`, starting with the hardware in state `h`. -/
def recv_words {H : Type} (P : Platform H) (id w word : Int) : Nat → H → List Int
  | 0, _ => []
  | n + 1, h =>
    (P.platform_spi_send_recv h id w word).1 ::
      recv_words P id w word n (P.platform_spi_send_recv h id w word).2

/-- A stream item as the spec describes it: a scalar, a sequence of integers
or a text (a string of bytes). -/
inductive Item where
  | scalar (n : Int)
  | sequence (vals : List Int)
  | text (bytes : List Int)
  deriving DecidableEq, Repr

/-- The Lua value that passes an item to `spi.send` / `spi.send_recv`. -/
def Item.toLua : Item → LuaVal
  | Item.scalar n => LuaVal.number n
  | Item.sequence vals => LuaVal.table (vals.map some)
  | Item.text bytes => LuaVal.string bytes

/-- The outgoing words of an item, as the spec describes them: the value of a
scalar, the elements of a sequence, the bytes of a text, each as the unsigned
32-bit word handed to the platform. -/
def Item.words : Item → List Int
  | Item.scalar n => [toU32 n]
  | Item.sequence vals => vals.map toU32
  | Item.text bytes => bytes.map (fun c => toU32 (toU8 c))

/-- The outgoing words of an item list: those of the items, left to right. -/
def stream_words : List Item → List Int
  | [] => []
  | it :: its => it.words ++ stream_words its

/-- The hardware state after the words of `ds` have been sent on port `id`
with width `w`, in order. -/
def send_hw {H : Type} (P : Platform H) (id w : Int) : List Int → H → H
  | [], h => h
  | d :: ds, h => send_hw P id w ds (P.platform_spi_send h id w d)

/-- An item that is not a sequence with elements: a scalar, a text or an
empty sequence. -/
def Item.plain : Item → Bool
  | Item.sequence (_ :: _) => false
  | _ => true

/-- The bytes echoed for a text, the low 8 bits of the word the platform
returns for each byte sent on port `id` with width `w`, and the hardware state
afterwards. -/
def text_echo {H : Type} (P : Platform H) (id w : Int) : List Int → H → List Int × H
  | [], h => ([], h)
  | c :: cs, h =>
    ((toU8 (P.platform_spi_send_recv h id w (toU32 (toU8 c))).1) ::
        (text_echo P id w cs (P.platform_spi_send_recv h id w (toU32 (toU8 c))).2).1,
      (text_echo P id w cs (P.platform_spi_send_recv h id w (toU32 (toU8 c))).2).2)

/-- The result slots the spec describes for a list of plain items when
receiving, and the hardware state afterwards: the echoed word for a scalar,
the string of echoed bytes for a text with bytes, and no slot for an empty
text or an empty sequence. -/
def echo_run {H : Type} (P : Platform H) (id w : Int) : List Item → H → List LuaVal × H
  | [], h => ([], h)
  | Item.scalar n :: its, h =>
    (lua_pushinteger (P.platform_spi_send_recv h id w (toU32 n)).1 ::
        (echo_run P id w its (P.platform_spi_send_recv h id w (toU32 n)).2).1,
      (echo_run P id w its (P.platform_spi_send_recv h id w (toU32 n)).2).2)
  | Item.sequence _ :: its, h => echo_run P id w its h
  | Item.text bs :: its, h =>
    ((if bs = [] then (echo_run P id w its (text_echo P id w bs h).2).1
      else LuaVal.string (text_echo P id w bs h).1 ::
        (echo_run P id w its (text_echo P id w bs h).2).1),
      (echo_run P id w its (text_echo P id w bs h).2).2)

/-! ## Machine integers: basic facts -/

theorem toInt32_eq_self (x : Int) (h : -2147483648 ≤ x ∧ x < 2147483648) : toInt32 x = x := by
  unfold toInt32; omega

/-! ## `spi_set_mosi` -/

theorem set_mosi_loop_frame {H : Type} (P : Platform H) (id bitlen : Int) (vals : List LuaVal) :
    ∀ (argn offset : Int) (s : State H),
      (set_mosi_loop P id bitlen vals argn offset s).2.spi_databits = s.spi_databits := by
  induction vals with
  | nil => intro argn offset s; rfl
  | cons v vs ih =>
    intro argn offset s
    unfold set_mosi_loop
    cases hv : luaL_checkinteger P (some v) argn with
    | error e => rfl
    | ok d =>
      simp only
      split_ifs with h1 h2
      · rfl
      · rw [ih]
      · rfl

/-- The loop of `spi_set_mosi` passes over a prefix of integer arguments that
fit the buffer and are accepted by the platform: the writes are issued and the
loop goes on with the remaining arguments. -/
theorem set_mosi_loop_prefix {H : Type} (P : Platform H) (id bitlen offset : Int)
    (hb : 1 ≤ bitlen ∧ bitlen ≤ 32) (rest : List LuaVal) :
    ∀ (pre : List Int) (first : Nat) (argn : Int) (s : State H),
      0 ≤ offset + (first : Int) * bitlen →
      offset + (first : Int) * bitlen + (pre.length : Int) * bitlen ≤ 512 →
      mosi_ok P id bitlen pre (offset + (first : Int) * bitlen) s.hw = true →
      set_mosi_loop P id bitlen (pre.map LuaVal.number ++ rest) argn
          (offset + (first : Int) * bitlen) s
        = set_mosi_loop P id bitlen rest (argn + (pre.length : Int))
            (offset + ((first + pre.length : Nat) : Int) * bitlen)
            { s with hw := mosi_hw P id bitlen pre (offset + (first : Int) * bitlen) s.hw,
                     calls := s.calls ++ mosi_writes id offset bitlen first pre } := by
  intro pre
  induction pre with
  | nil =>
    intro first argn s _ _ _
    simp [mosi_hw, mosi_writes]
  | cons v vs ih =>
    intro first argn s h0 hfit hok
    simp only [List.length_cons, Nat.cast_add, Nat.cast_one] at hfit
    have hlen : (0 : Int) ≤ (vs.length : Int) := Int.ofNat_nonneg _
    have hmul : (0 : Int) ≤ (vs.length : Int) * bitlen := Int.mul_nonneg hlen (by omega)
    have hstep : offset + (first : Int) * bitlen + bitlen
        = offset + ((first + 1 : Nat) : Int) * bitlen := by
      push_cast; ring
    have hwrap : toInt32 (offset + (first : Int) * bitlen + bitlen)
        = offset + (first : Int) * bitlen + bitlen := by
      apply toInt32_eq_self
      constructor
      · omega
      · nlinarith
    simp only [mosi_ok, Bool.and_eq_true] at hok
    simp only [List.map_cons, List.cons_append, set_mosi_loop, luaL_checkinteger, hwrap]
    have hle : ¬ (offset + (first : Int) * bitlen + bitlen > 512) := by nlinarith
    rw [if_neg hle, if_pos hok.1, hstep]
    have hrec := ih (first + 1) (argn + 1)
      { s with hw := (P.platform_spi_set_mosi s.hw id (offset + (first : Int) * bitlen) bitlen
                  (toU32 v)).2,
               calls := s.calls ++ [Call.set_mosi id (offset + (first : Int) * bitlen) bitlen
                  (toU32 v)] }
      (by rw [← hstep]; omega) (by rw [← hstep]; nlinarith) (by rw [← hstep]; exact hok.2)
    simp only [List.append_eq] at hrec ⊢
    have e1 : argn + 1 + (vs.length : Int) = argn + ((vs.length + 1 : Nat) : Int) := by
      push_cast; ring
    have e2 : first + 1 + vs.length = first + (vs.length + 1) := by omega
    rw [hrec, e1, e2]
    simp only [mosi_hw, mosi_writes, List.enumFrom_cons, List.map_cons, List.length_cons,
      List.append_assoc, List.singleton_append, ← hstep]

theorem mosi_ok_of_always_ok {H : Type} (P : Platform H) (id bitlen : Int)
    (hok : ∀ h i o b d, (P.platform_spi_set_mosi h i o b d).1 = true) :
    ∀ (vals : List Int) (offset : Int) (h : H), mosi_ok P id bitlen vals offset h = true := by
  intro vals
  induction vals with
  | nil => intro offset h; rfl
  | cons v vs ih => intro offset h; simp [mosi_ok, hok, ih]

/-- Entry of `spi_set_mosi` with a known port, a valid offset and bit length
and at least one value: the call is the loop over the values. -/
theorem spi_set_mosi_enter {H : Type} (P : Platform H) (s : State H) (id offset bitlen : Int)
    (v : LuaVal) (vs : List LuaVal)
    (hid : platform_spi_exists id = true) (ho : 0 ≤ offset ∧ offset ≤ 511)
    (hb : 1 ≤ bitlen ∧ bitlen ≤ 32) :
    spi_set_mosi P
        (LuaVal.number id :: LuaVal.number offset :: LuaVal.number bitlen :: v :: vs) s
      = set_mosi_loop P id bitlen (v :: vs) 4 offset s := by
  have h1 : ¬ (offset < 0 ∨ offset > 511) := by omega
  have h2 : ¬ (bitlen < 1 ∨ bitlen > 32) := by omega
  simp [spi_set_mosi, luaL_checkinteger, hid, h1, h2]

/-- C1: set_bits success path.  For a known port, an offset in 0..511, a bit
length in 1..32 and a non-empty list of n values with
offset + n * bitlen <= 512, on a platform whose set_mosi always reports ok,
`spi_set_mosi` returns no value and issues exactly the n writes
set_mosi(id, offset + k * bitlen, bitlen, (u32) values[k]), k = 0..n-1, in
that order; the table of widths is not touched. -/
theorem set_mosi_success {H : Type} (P : Platform H) (s : State H) (id offset bitlen : Int)
    (vals : List Int)
    (hid : platform_spi_exists id = true) (ho : 0 ≤ offset ∧ offset ≤ 511)
    (hb : 1 ≤ bitlen ∧ bitlen ≤ 32) (hne : vals ≠ [])
    (hfit : offset + (vals.length : Int) * bitlen ≤ 512)
    (hok : ∀ h i o b d, (P.platform_spi_set_mosi h i o b d).1 = true) :
    (spi_set_mosi P (set_mosi_args id offset bitlen vals) s).1 = Outcome.ret [] ∧
    (spi_set_mosi P (set_mosi_args id offset bitlen vals) s).2.calls
      = s.calls ++ vals.enum.map
          (fun kv => Call.set_mosi id (offset + (kv.1 : Int) * bitlen) bitlen (toU32 kv.2)) ∧
    (spi_set_mosi P (set_mosi_args id offset bitlen vals) s).2.spi_databits
      = s.spi_databits := by
  obtain ⟨v, vs, rfl⟩ := List.exists_cons_of_ne_nil hne
  have h0 : offset + ((0 : Nat) : Int) * bitlen = offset := by simp
  have hrun := set_mosi_loop_prefix P id bitlen offset hb [] (v :: vs) 0 4 s
    (by rw [h0]; exact ho.1) (by rw [h0]; exact hfit)
    (mosi_ok_of_always_ok P id bitlen hok _ _ _)
  rw [h0, List.append_nil] at hrun
  have henter := spi_set_mosi_enter P s id offset bitlen (LuaVal.number v)
    (vs.map LuaVal.number) hid ho hb
  simp only [set_mosi_args, List.map_cons] at hrun ⊢
  rw [henter, hrun]
  simp [set_mosi_loop, mosi_writes, List.enum]

/-- Witness of C1: three 8-bit values written at offset 488 on the loopback
platform. -/
theorem set_mosi_success_witness :
    (spi_set_mosi loopback (set_mosi_args 1 488 8 [7, 8, 9]) (State.init ())).1 = Outcome.ret [] ∧
    (spi_set_mosi loopback (set_mosi_args 1 488 8 [7, 8, 9]) (State.init ())).2.calls
      = [Call.set_mosi 1 488 8 7, Call.set_mosi 1 496 8 8, Call.set_mosi 1 504 8 9] := by
  have h := set_mosi_success loopback (State.init ()) 1 488 8 [7, 8, 9]
    (by decide) (by decide) (by decide) (by decide) (by decide) (by intros; rfl)
  refine ⟨h.1, ?_⟩
  rw [h.2.1]
  decide

/-- C2: set_bits stops at the first failing element and keeps earlier
progress.  Let the value list be `pre ++ v :: post` with k = |pre|, where the
elements before k fit the buffer and are accepted by the platform.  If
element k does not fit (offset + (k+1) * bitlen > 512) the call raises
"data range exceeded > 512 bits" and the calls issued are exactly the writes
of elements 0..k-1, in order.  If element k fits and the platform reports a
failure for it, the call raises "failed" and the calls issued are exactly the
writes of elements 0..k, in order.  In both cases nothing is issued for an
element after k. -/
theorem set_mosi_stops_at_first_failure {H : Type} (P : Platform H) (s : State H)
    (id offset bitlen : Int) (pre : List Int) (v : Int) (post : List Int)
    (hid : platform_spi_exists id = true) (ho : 0 ≤ offset ∧ offset ≤ 511)
    (hb : 1 ≤ bitlen ∧ bitlen ≤ 32)
    (hpre : offset + (pre.length : Int) * bitlen ≤ 512)
    (hok : mosi_ok P id bitlen pre offset s.hw = true) :
    (offset + ((pre.length : Int) + 1) * bitlen > 512 →
      (spi_set_mosi P (set_mosi_args id offset bitlen (pre ++ v :: post)) s).1
        = Outcome.raise LuaError.data_range_exceeded ∧
      (spi_set_mosi P (set_mosi_args id offset bitlen (pre ++ v :: post)) s).2.calls
        = s.calls ++ pre.enum.map
            (fun kv => Call.set_mosi id (offset + (kv.1 : Int) * bitlen) bitlen (toU32 kv.2))) ∧
    (offset + ((pre.length : Int) + 1) * bitlen ≤ 512 →
      (P.platform_spi_set_mosi (mosi_hw P id bitlen pre offset s.hw) id
          (offset + (pre.length : Int) * bitlen) bitlen (toU32 v)).1 = false →
      (spi_set_mosi P (set_mosi_args id offset bitlen (pre ++ v :: post)) s).1
        = Outcome.raise LuaError.failed ∧
      (spi_set_mosi P (set_mosi_args id offset bitlen (pre ++ v :: post)) s).2.calls
        = s.calls ++ pre.enum.map
            (fun kv => Call.set_mosi id (offset + (kv.1 : Int) * bitlen) bitlen (toU32 kv.2))
          ++ [Call.set_mosi id (offset + (pre.length : Int) * bitlen) bitlen (toU32 v)]) := by
  have h0 : offset + ((0 : Nat) : Int) * bitlen = offset := by simp
  have hrun := set_mosi_loop_prefix P id bitlen offset hb
    (LuaVal.number v :: post.map LuaVal.number) pre 0 4 s
    (by rw [h0]; exact ho.1) (by rw [h0]; exact hpre) (by rw [h0]; exact hok)
  rw [h0] at hrun
  have hargs : set_mosi_args id offset bitlen (pre ++ v :: post)
      = LuaVal.number id :: LuaVal.number offset :: LuaVal.number bitlen ::
          (pre.map LuaVal.number ++ LuaVal.number v :: post.map LuaVal.number) := by
    simp [set_mosi_args]
  obtain ⟨w, ws, hw⟩ : ∃ w ws, pre.map LuaVal.number ++ LuaVal.number v :: post.map LuaVal.number
      = w :: ws := by
    cases pre with
    | nil => exact ⟨_, _, rfl⟩
    | cons a as => exact ⟨_, _, rfl⟩
  have henter := spi_set_mosi_enter P s id offset bitlen w ws hid ho hb
  rw [hargs, hw, henter, ← hw, hrun]
  have hlen : (0 : Int) ≤ (pre.length : Int) := Int.ofNat_nonneg _
  have hmul : (0 : Int) ≤ (pre.length : Int) * bitlen := Int.mul_nonneg hlen (by omega)
  have hwrap : toInt32 (offset + (pre.length : Int) * bitlen + bitlen)
      = offset + (pre.length : Int) * bitlen + bitlen := by
    apply toInt32_eq_self
    constructor <;> omega
  have hsum : offset + ((pre.length : Int) + 1) * bitlen
      = offset + (pre.length : Int) * bitlen + bitlen := by ring
  simp only [Nat.zero_add, set_mosi_loop, luaL_checkinteger, hwrap, mosi_writes, List.enum]
  constructor
  · intro hover
    rw [hsum] at hover
    rw [if_pos hover]
    exact ⟨rfl, rfl⟩
  · intro hfits hfail
    rw [hsum] at hfits
    rw [if_neg (by omega), hfail]
    simp

/-- Witness of C2 on the platform `budget`: with one write left in the budget
the second of three values fails, and at offset 496 the third 8-bit value of
[1, 2, 3] from offset 496 does not fit. -/
theorem set_mosi_stops_at_first_failure_witness :
    ((spi_set_mosi budget (set_mosi_args 0 0 8 ([1] ++ 2 :: [3])) (State.init 1)).1
        = Outcome.raise LuaError.failed ∧
      (spi_set_mosi budget (set_mosi_args 0 0 8 ([1] ++ 2 :: [3])) (State.init 1)).2.calls
        = [Call.set_mosi 0 0 8 1, Call.set_mosi 0 8 8 2]) ∧
    ((spi_set_mosi budget (set_mosi_args 0 496 8 ([1, 2] ++ 3 :: [4])) (State.init 9)).1
        = Outcome.raise LuaError.data_range_exceeded ∧
      (spi_set_mosi budget (set_mosi_args 0 496 8 ([1, 2] ++ 3 :: [4])) (State.init 9)).2.calls
        = [Call.set_mosi 0 496 8 1, Call.set_mosi 0 504 8 2]) := by
  have h1 := (set_mosi_stops_at_first_failure budget (State.init 1) 0 0 8 [1] 2 [3]
    (by decide) (by decide) (by decide) (by decide) (by decide)).2 (by decide) (by decide)
  have h2 := (set_mosi_stops_at_first_failure budget (State.init 9) 0 496 8 [1, 2] 3 [4]
    (by decide) (by decide) (by decide) (by decide) (by decide)).1 (by decide)
  refine ⟨⟨h1.1, ?_⟩, ⟨h2.1, ?_⟩⟩
  · rw [h1.2]; decide
  · rw [h2.2]; decide

/-! ## `spi_get_miso` -/

/-- The calls of the loop of `spi_get_miso`, whatever the arguments: one read
per iteration, at the offset the C expression `offset + (bitlen * i)` yields in
32-bit arithmetic, until the iterations are done or a push is beyond the
`LUA_MINSTACK` slots. -/
theorem get_miso_loop_calls {H : Type} (P : Platform H) (id offset bitlen : Int) :
    ∀ (n : Nat) (i : Int) (pushed : List LuaVal) (s : State H), pushed.length ≤ 20 →
      (get_miso_loop P id offset bitlen n i pushed s).2.calls
        = s.calls ++ (List.range (min n (21 - pushed.length))).map
            (fun (j : Nat) =>
              Call.get_miso id (toInt32 (offset + toInt32 (bitlen * (i + (j : Int))))) bitlen) := by
  intro n
  induction n with
  | zero => intro i pushed s _; simp [get_miso_loop]
  | succ n ih =>
    intro i pushed s hlen
    simp only [get_miso_loop]
    by_cases hroom : (pushed.length : Int) < LUA_MINSTACK
    · have h20 : pushed.length < 20 := by unfold LUA_MINSTACK at hroom; omega
      have hmin : min (n + 1) (21 - pushed.length)
          = min n (21 - (pushed ++ [lua_pushinteger
              (P.platform_spi_get_miso s.hw id (toInt32 (offset + toInt32 (bitlen * i)))
                bitlen).1]).length) + 1 := by
        simp only [List.length_append, List.length_singleton]
        omega
      rw [if_pos hroom, ih _ _ _ (by simp only [List.length_append, List.length_singleton]; omega),
        hmin, List.range_succ_eq_map]
      simp only [List.map_cons, List.map_map, List.append_assoc, List.singleton_append]
      congr 2
      · simp
      · apply List.map_congr_left
        intro j _
        simp only [Function.comp_apply, Nat.cast_succ]
        congr 4
        ring
    · have h20 : pushed.length = 20 := by unfold LUA_MINSTACK at hroom; omega
      have hmin : min (n + 1) (21 - pushed.length) = 1 := by omega
      rw [if_neg hroom, hmin, show List.range 1 = [0] from rfl]
      simp

theorem get_miso_loop_frame {H : Type} (P : Platform H) (id offset bitlen : Int) :
    ∀ (n : Nat) (i : Int) (pushed : List LuaVal) (s : State H),
      (get_miso_loop P id offset bitlen n i pushed s).2.spi_databits = s.spi_databits := by
  intro n
  induction n with
  | zero => intro i pushed s; rfl
  | succ n ih =>
    intro i pushed s
    simp only [get_miso_loop]
    split_ifs
    · rw [ih]
    · rfl

/-- The loop of `spi_get_miso` leaves the contract of the C API when it has
more values to push than slots are left. -/
theorem get_miso_loop_none {H : Type} (P : Platform H) (id offset bitlen : Int) :
    ∀ (n : Nat) (i : Int) (pushed : List LuaVal) (s : State H), pushed.length ≤ 20 →
      20 < pushed.length + n →
      (get_miso_loop P id offset bitlen n i pushed s).1 = none := by
  intro n
  induction n with
  | zero => intro i pushed s h1 h2; omega
  | succ n ih =>
    intro i pushed s h1 h2
    simp only [get_miso_loop]
    by_cases hroom : (pushed.length : Int) < LUA_MINSTACK
    · have h20 : pushed.length < 20 := by unfold LUA_MINSTACK at hroom; omega
      rw [if_pos hroom]
      apply ih
      · simp only [List.length_append, List.length_singleton]; omega
      · simp only [List.length_append, List.length_singleton]; omega
    · rw [if_neg hroom]

/-- The values pushed by the loop of `spi_get_miso` when every window lies in
the buffer and the values fit the slots left: the words the platform returns
for the reads at consecutive windows, each made a Lua integer. -/
theorem get_miso_loop_values {H : Type} (P : Platform H) (id offset bitlen : Int)
    (ho : 0 ≤ offset ∧ offset ≤ 511) (hb : 1 ≤ bitlen ∧ bitlen ≤ 32) :
    ∀ (n : Nat) (i : Nat) (pushed : List LuaVal) (s : State H),
      offset + bitlen * ((i + n : Nat) : Int) ≤ 512 → pushed.length + n ≤ 20 →
      (get_miso_loop P id offset bitlen n i pushed s).1
        = some (pushed ++ (miso_reads P id bitlen n (offset + (i : Int) * bitlen) s.hw).map
            lua_pushinteger) := by
  intro n
  induction n with
  | zero => intro i pushed s _ _; simp [get_miso_loop, miso_reads]
  | succ n ih =>
    intro i pushed s hfit hstack
    have hi : (0 : Int) ≤ (i : Int) := Int.ofNat_nonneg _
    have hn : (0 : Int) ≤ (n : Int) := Int.ofNat_nonneg _
    push_cast at hfit
    have hprod : 0 ≤ bitlen * (i : Int) := Int.mul_nonneg (by omega) hi
    have hprod2 : 0 ≤ bitlen * (n : Int) := Int.mul_nonneg (by omega) hn
    have hlt : bitlen * (i : Int) ≤ 512 := by nlinarith
    have hw1 : toInt32 (bitlen * (i : Int)) = bitlen * (i : Int) :=
      toInt32_eq_self _ (by constructor <;> omega)
    have hw2 : toInt32 (offset + bitlen * (i : Int)) = offset + bitlen * (i : Int) :=
      toInt32_eq_self _ (by constructor <;> omega)
    have hcomm : offset + bitlen * (i : Int) = offset + (i : Int) * bitlen := by ring
    have hnext : offset + (i : Int) * bitlen + bitlen = offset + ((i + 1 : Nat) : Int) * bitlen := by
      push_cast; ring
    have hcast : ((i : Int) + 1) = ((i + 1 : Nat) : Int) := by push_cast; rfl
    have hw3 : toInt32 (offset + (i : Int) * bitlen) = offset + (i : Int) * bitlen := by
      rw [← hcomm]; exact hw2
    have hroom : (pushed.length : Int) < LUA_MINSTACK := by unfold LUA_MINSTACK; omega
    simp only [get_miso_loop, miso_reads, hw1, hw2, hw3, hcomm, hcast, List.map_cons, hroom,
      if_true]
    rw [ih (i + 1) _ _ (by push_cast; nlinarith)
      (by simp only [List.length_append, List.length_singleton]; omega), hnext]
    simp

/-- A call of `spi_get_miso` on a known port whose three guards do not fire
is the loop, run `num` times, followed by `return num`. -/
theorem spi_get_miso_run {H : Type} (P : Platform H) (s : State H)
    (id offset bitlen num : Int)
    (hid : platform_spi_exists id = true) (ho : 0 ≤ offset ∧ offset ≤ 511)
    (hb : 1 ≤ bitlen ∧ bitlen ≤ 32)
    (hguard : ¬ (toInt32 (offset + toInt32 (bitlen * num)) > 512)) :
    spi_get_miso P [LuaVal.number id, LuaVal.number offset, LuaVal.number bitlen,
        LuaVal.number num] s
      = (get_miso_return num (get_miso_loop P id offset bitlen num.toNat 0 [] s).1,
          (get_miso_loop P id offset bitlen num.toNat 0 [] s).2) := by
  have h1 : ¬ (offset < 0 ∨ offset > 511) := by omega
  have h2 : ¬ (bitlen < 1 ∨ bitlen > 32) := by omega
  simp only [spi_get_miso, luaL_checkinteger, List.get?, hid, hguard, h1, h2,
    Bool.not_true, Bool.false_eq_true, if_false]

/-- Reads within the guaranteed stack slots.  For a known port, an offset in
0..511, a bit length in 1..32 and a count in 0..20 with
offset + bitlen * count <= 512, `spi_get_miso` issues exactly the reads
get_miso(id, offset + i * bitlen, bitlen), i = 0..count-1, in that order, and
returns exactly count values, the i-th being the Lua integer made of the word
the platform returned for the i-th read. -/
theorem get_miso_within_stack {H : Type} (P : Platform H) (s : State H)
    (id offset bitlen count : Int)
    (hid : platform_spi_exists id = true) (ho : 0 ≤ offset ∧ offset ≤ 511)
    (hb : 1 ≤ bitlen ∧ bitlen ≤ 32) (hc : 0 ≤ count ∧ count ≤ 20)
    (hfit : offset + bitlen * count ≤ 512) :
    (spi_get_miso P [LuaVal.number id, LuaVal.number offset, LuaVal.number bitlen,
        LuaVal.number count] s).1
      = Outcome.ret ((miso_reads P id bitlen count.toNat offset s.hw).map lua_pushinteger) ∧
    ((miso_reads P id bitlen count.toNat offset s.hw).length : Int) = count ∧
    (spi_get_miso P [LuaVal.number id, LuaVal.number offset, LuaVal.number bitlen,
        LuaVal.number count] s).2.calls
      = s.calls ++ (List.range count.toNat).map
          (fun (i : Nat) => Call.get_miso id (offset + (i : Int) * bitlen) bitlen) := by
  have hprod : 0 ≤ bitlen * count := Int.mul_nonneg (by omega) hc.1
  have hw1 : toInt32 (bitlen * count) = bitlen * count :=
    toInt32_eq_self _ (by constructor <;> omega)
  have hw2 : toInt32 (offset + bitlen * count) = offset + bitlen * count :=
    toInt32_eq_self _ (by constructor <;> omega)
  have hrun := spi_get_miso_run P s id offset bitlen count hid ho hb
    (by rw [hw1, hw2]; omega)
  have hcount : ((count.toNat : Nat) : Int) = count := Int.toNat_of_nonneg hc.1
  have hcn : count.toNat ≤ 20 := by omega
  have hlen : ∀ (n : Nat) (o : Int) (h : H), (miso_reads P id bitlen n o h).length = n := by
    intro n
    induction n with
    | zero => intro o h; rfl
    | succ n ih => intro o h; simp [miso_reads, ih]
  refine ⟨?_, ?_, ?_⟩
  · rw [hrun]
    have hv := get_miso_loop_values P id offset bitlen ho hb count.toNat 0 [] s
      (by simp only [Nat.zero_add]; rw [hcount]; exact hfit)
      (by simp only [List.length_nil]; omega)
    simp only [Nat.cast_zero, zero_mul, add_zero, List.nil_append] at hv
    have hneg : ¬ (count < 0) := by omega
    simp only [hv, get_miso_return, hneg, if_false]
  · rw [hlen, hcount]
  · rw [hrun]
    have hmin : min count.toNat (21 - ([] : List LuaVal).length) = count.toNat := by
      simp only [List.length_nil]; omega
    rw [get_miso_loop_calls P id offset bitlen count.toNat 0 [] s (by simp), hmin]
    congr 1
    apply List.map_congr_left
    intro j hj
    have hjlt : j < count.toNat := List.mem_range.mp hj
    have hj0 : (0 : Int) ≤ (j : Int) := Int.ofNat_nonneg _
    have hjc : (j : Int) < count := by omega
    have hpj : 0 ≤ bitlen * (j : Int) := Int.mul_nonneg (by omega) hj0
    have hpj2 : bitlen * (j : Int) ≤ bitlen * count := by nlinarith
    have hw3 : toInt32 (bitlen * (j : Int)) = bitlen * (j : Int) :=
      toInt32_eq_self _ (by constructor <;> omega)
    have hw4 : toInt32 (offset + bitlen * (j : Int)) = offset + bitlen * (j : Int) :=
      toInt32_eq_self _ (by constructor <;> omega)
    simp only [zero_add, hw3, hw4]
    congr 1
    ring

/-- C3 at the input `spi.get_miso( 0, 0, 8, 21 )`, a request inside the buffer
(0 + 8 * 21 <= 512): the loop pushes one value per read and the function never
calls `lua_checkstack`, so the 21st push is beyond the `LUA_MINSTACK` = 20
slots a C function may use.  The 21 reads are issued, at offsets 0, 8, ..,
160, but the call has no defined outcome: it does not return 21 integers. -/
theorem get_miso_exceeds_stack {H : Type} (P : Platform H) (s : State H) :
    (0 : Int) + 8 * 21 ≤ 512 ∧
    (spi_get_miso P [LuaVal.number 0, LuaVal.number 0, LuaVal.number 8, LuaVal.number 21] s).1
      = Outcome.undefined ∧
    (spi_get_miso P [LuaVal.number 0, LuaVal.number 0, LuaVal.number 8, LuaVal.number 21]
        s).2.calls
      = s.calls ++ (List.range 21).map (fun (i : Nat) => Call.get_miso 0 (8 * (i : Int)) 8) := by
  have hguard : ¬ (toInt32 (0 + toInt32 (8 * 21)) > 512) := by
    unfold toInt32; norm_num
  have ht : (21 : Int).toNat = 21 := rfl
  have hrun := spi_get_miso_run P s 0 0 8 21 (by decide) (by norm_num) (by norm_num) hguard
  have hnone := get_miso_loop_none P 0 0 8 21 0 [] s (by simp) (by simp)
  have hcalls := get_miso_loop_calls P 0 0 8 21 0 [] s (by simp)
  have hmin : min 21 (21 - ([] : List LuaVal).length) = 21 := by
    simp only [List.length_nil]; omega
  rw [ht] at hrun
  rw [hmin] at hcalls
  have hmap : ∀ j ∈ List.range 21,
      Call.get_miso 0 (toInt32 (0 + toInt32 (8 * (0 + (j : Int))))) 8
        = Call.get_miso 0 (8 * (j : Int)) 8 := by
    intro j hj
    have hjlt : j < 21 := List.mem_range.mp hj
    have hw : toInt32 (0 + toInt32 (8 * (0 + (j : Int)))) = 8 * (j : Int) := by
      unfold toInt32; omega
    rw [hw]
  refine ⟨by norm_num, ?_, ?_⟩
  · rw [hrun, hnone]
    rfl
  · rw [hrun, hcalls, List.map_congr_left hmap]

/-- C4 at the input `spi.get_miso( 0, 0, 32, 134217728 )`: the request exceeds
the buffer (0 + 32 * 134217728 > 512), but the 32-bit product
`bitlen * num` wraps to 0, so the guard `offset + bitlen * num > 512` does not
fire: the call does not raise "out of range" and the loop issues reads, among
them, as the 17th, the read of the window at offset 512, which lies outside
bits 0..511.  (The loop goes on until the 21st push is beyond the
`LUA_MINSTACK` slots, where the call is left without a defined outcome.) -/
theorem get_miso_guard_wraps {H : Type} (P : Platform H) (s : State H) :
    (spi_get_miso P [LuaVal.number 0, LuaVal.number 0, LuaVal.number 32,
        LuaVal.number 134217728] s).1 ≠ Outcome.raise LuaError.out_of_range ∧
    (spi_get_miso P [LuaVal.number 0, LuaVal.number 0, LuaVal.number 32,
        LuaVal.number 134217728] s).2.calls.length = s.calls.length + 21 ∧
    Call.get_miso 0 512 32 ∈
      (spi_get_miso P [LuaVal.number 0, LuaVal.number 0, LuaVal.number 32,
        LuaVal.number 134217728] s).2.calls ∧
    ((spi_get_miso P [LuaVal.number 0, LuaVal.number 0, LuaVal.number 32,
        LuaVal.number 134217728] s).2.calls.drop s.calls.length).get? 16
      = some (Call.get_miso 0 512 32) := by
  have hguard : ¬ (toInt32 (0 + toInt32 (32 * 134217728)) > 512) := by
    unfold toInt32; norm_num
  have ht : (134217728 : Int).toNat = 134217728 := rfl
  have hrun := spi_get_miso_run P s 0 0 32 134217728 (by decide) (by norm_num) (by norm_num)
    hguard
  have hnone := get_miso_loop_none P 0 0 32 134217728 0 [] s (by simp) (by simp)
  have hcalls := get_miso_loop_calls P 0 0 32 134217728 0 [] s (by simp)
  have hmin : min 134217728 (21 - ([] : List LuaVal).length) = 21 := by
    simp only [List.length_nil]; omega
  rw [ht] at hrun
  rw [hmin] at hcalls
  have h16 : toInt32 (0 + toInt32 (32 * (0 + ((16 : Nat) : Int)))) = 512 := by
    unfold toInt32; norm_num
  refine ⟨?_, ?_, ?_, ?_⟩
  · rw [hrun, hnone]
    intro h
    exact Outcome.noConfusion h
  · rw [hrun, hcalls, List.length_append, List.length_map, List.length_range]
  · rw [hrun, hcalls]
    apply List.mem_append_right
    apply List.mem_map.mpr
    exact ⟨16, List.mem_range.mpr (by norm_num), by rw [h16]⟩
  · rw [hrun, hcalls, List.drop_left]
    simp only [List.get?_eq_getElem?, List.getElem?_map]
    rw [List.getElem?_range (by norm_num)]
    simp only [Option.map_some', h16]

/-! ## Bit buffer round trip -/

/-- Reading a field of the bit buffer right after setting it yields the low
`bitlen` bits of the data. -/
theorem bitbuf_get_set (buf offset bitlen data : Nat) :
    bitbuf_get (bitbuf_set buf offset bitlen data) offset bitlen = data % 2 ^ bitlen := by
  unfold bitbuf_get bitbuf_set
  have hpos : 0 < 2 ^ offset := Nat.two_pow_pos offset
  have hsplit : buf % 2 ^ offset + data % 2 ^ bitlen * 2 ^ offset
        + buf / 2 ^ (offset + bitlen) * 2 ^ (offset + bitlen)
      = buf % 2 ^ offset
        + (data % 2 ^ bitlen + buf / 2 ^ (offset + bitlen) * 2 ^ bitlen) * 2 ^ offset := by
    rw [pow_add]; ring
  rw [hsplit, Nat.add_mul_div_right _ _ hpos, Nat.div_eq_of_lt (Nat.mod_lt _ hpos),
    Nat.zero_add, Nat.add_mul_mod_self_right, Nat.mod_mod]

/-- C5: bit-buffer round trip on the bit buffer of the spec.  For a known
port, an offset in 0..511 and a bit length in 1..32 with
offset + bitlen <= 512, and a Lua integer v that fits in bitlen bits,
`spi_set_mosi( id, offset, bitlen, v )` succeeds and
`spi_get_miso( id, offset, bitlen, 1 )` performed right after returns v. -/
theorem set_get_round_trip (s : State (Int → Nat)) (id offset bitlen v : Int)
    (hid : platform_spi_exists id = true) (ho : 0 ≤ offset ∧ offset ≤ 511)
    (hb : 1 ≤ bitlen ∧ bitlen ≤ 32) (hfit : offset + bitlen ≤ 512)
    (hv : 0 ≤ v ∧ v < 2 ^ bitlen.toNat) (hint : v ≤ 2147483647) :
    (spi_set_mosi bitbuffer (set_mosi_args id offset bitlen [v]) s).1 = Outcome.ret [] ∧
    (spi_get_miso bitbuffer
        [LuaVal.number id, LuaVal.number offset, LuaVal.number bitlen, LuaVal.number 1]
        (spi_set_mosi bitbuffer (set_mosi_args id offset bitlen [v]) s).2).1
      = Outcome.ret [LuaVal.number v] := by
  have hw : toInt32 (offset + bitlen) = offset + bitlen :=
    toInt32_eq_self _ (by constructor <;> omega)
  have hle : ¬ (offset + bitlen > 512) := by omega
  have hin : 0 ≤ offset ∧ 1 ≤ bitlen ∧ bitlen ≤ 32 ∧ offset + bitlen ≤ 512 := by omega
  have hu : toU32 v = v := by unfold toU32; omega
  have hset : spi_set_mosi bitbuffer (set_mosi_args id offset bitlen [v]) s
      = (Outcome.ret [],
          { s with hw := Function.update s.hw id
                      (bitbuf_set (s.hw id) offset.toNat bitlen.toNat v.toNat),
                   calls := s.calls ++ [Call.set_mosi id offset bitlen v] }) := by
    simp only [set_mosi_args, List.map_cons, List.map_nil]
    rw [spi_set_mosi_enter bitbuffer s id offset bitlen _ _ hid ho hb]
    simp [set_mosi_loop, luaL_checkinteger, hw, hle, hu, bitbuffer, hin]
  have hb1 : toInt32 (bitlen * 1) = bitlen := by
    rw [mul_one]; exact toInt32_eq_self _ (by constructor <;> omega)
  have hb0 : toInt32 (offset + toInt32 (bitlen * 0)) = offset := by
    rw [mul_zero, toInt32_eq_self 0 (by constructor <;> norm_num), add_zero]
    exact toInt32_eq_self _ (by constructor <;> omega)
  have hget := spi_get_miso_run bitbuffer
    { s with hw := Function.update s.hw id
                (bitbuf_set (s.hw id) offset.toNat bitlen.toNat v.toNat),
             calls := s.calls ++ [Call.set_mosi id offset bitlen v] }
    id offset bitlen 1 hid ho hb (by rw [hb1, hw]; omega)
  have hroom : ((([] : List LuaVal).length : Nat) : Int) < LUA_MINSTACK := by decide
  rw [hset]
  refine ⟨rfl, ?_⟩
  rw [hget]
  have hvn : ((v.toNat : Nat) : Int) = v := Int.toNat_of_nonneg hv.1
  have hmod : v.toNat % 2 ^ bitlen.toNat = v.toNat := by
    apply Nat.mod_eq_of_lt
    have h2 : ((v.toNat : Nat) : Int) < ((2 ^ bitlen.toNat : Nat) : Int) := by
      rw [hvn]; push_cast; exact hv.2
    exact_mod_cast h2
  have hone : (1 : Int).toNat = 1 := rfl
  have hneg : ¬ ((1 : Int) < 0) := by decide
  simp only [hone, get_miso_loop, hroom, if_true, get_miso_return, hneg, if_false, hb0,
    bitbuffer, Function.update_same, bitbuf_get_set, hmod, hvn, List.nil_append,
    lua_pushinteger]
  rw [toInt32_eq_self v (by constructor <;> omega)]

/-- Witness of C5: the 12-bit value 2748 written at offset 500 of port 1 and
read back. -/
theorem set_get_round_trip_witness :
    (spi_get_miso bitbuffer
        [LuaVal.number 1, LuaVal.number 500, LuaVal.number 12, LuaVal.number 1]
        (spi_set_mosi bitbuffer (set_mosi_args 1 500 12 [2748])
          (State.init (fun _ => 0))).2).1
      = Outcome.ret [LuaVal.number 2748] :=
  (set_get_round_trip (State.init (fun _ => 0)) 1 500 12 2748
    (by decide) (by decide) (by decide) (by decide) (by decide) (by decide)).2

/-! ## `spi_transaction` -/

/-- `spi_transaction` on eight integer arguments and a known port, with the
argument checks resolved. -/
theorem spi_transaction_eq {H : Type} (P : Platform H) (s : State H)
    (id cb cd ab ad mb db sb : Int) (hid : platform_spi_exists id = true) :
    spi_transaction P (transaction_args id cb cd ab ad mb db sb) s
      = if cb < 0 ∨ cb > 16 then (Outcome.raise LuaError.cmd_bitlen_out_of_range, s)
        else if ab < 0 ∨ ab > 32 then (Outcome.raise LuaError.addr_bitlen_out_of_range, s)
        else if mb < 0 ∨ mb > 512 then (Outcome.raise LuaError.mosi_bitlen_out_of_range, s)
        else if db < 0 ∨ db > 256 then (Outcome.raise LuaError.dummy_bitlen_out_of_range, s)
        else if sb < 0 ∨ sb > 511 then (Outcome.raise LuaError.miso_bitlen_out_of_range, s)
        else if (P.platform_spi_transaction s.hw id cb (toU16 cd) ab (toU32 ad) mb db sb).1
        then (Outcome.ret [],
          { s with hw := (P.platform_spi_transaction s.hw id cb (toU16 cd) ab (toU32 ad)
                      mb db sb).2,
                   calls := s.calls
                      ++ [Call.transaction id cb (toU16 cd) ab (toU32 ad) mb db sb] })
        else (Outcome.raise LuaError.failed,
          { s with hw := (P.platform_spi_transaction s.hw id cb (toU16 cd) ab (toU32 ad)
                      mb db sb).2,
                   calls := s.calls
                      ++ [Call.transaction id cb (toU16 cd) ab (toU32 ad) mb db sb] }) := by
  simp only [spi_transaction, transaction_args, luaL_checkinteger, List.get?, hid,
    Bool.not_true, Bool.false_eq_true, if_false]

/-- C6: run_transaction acceptance.  For a known port, `spi_transaction`
returns (no value) exactly when the five bit lengths are within 0..16, 0..32,
0..512, 0..256 and 0..511 and the platform's transaction runner reports ok.
When the five bit lengths are in range the runner is invoked exactly once,
and a failure it reports makes the call raise "failed"; when one of them is
out of range the runner is not invoked and the state is unchanged. -/
theorem transaction_acceptance {H : Type} (P : Platform H) (s : State H)
    (id cb cd ab ad mb db sb : Int) (hid : platform_spi_exists id = true) :
    ((spi_transaction P (transaction_args id cb cd ab ad mb db sb) s).1 = Outcome.ret [] ↔
      ((0 ≤ cb ∧ cb ≤ 16) ∧ (0 ≤ ab ∧ ab ≤ 32) ∧ (0 ≤ mb ∧ mb ≤ 512) ∧ (0 ≤ db ∧ db ≤ 256)
          ∧ (0 ≤ sb ∧ sb ≤ 511)) ∧
        (P.platform_spi_transaction s.hw id cb (toU16 cd) ab (toU32 ad) mb db sb).1 = true) ∧
    ((0 ≤ cb ∧ cb ≤ 16) ∧ (0 ≤ ab ∧ ab ≤ 32) ∧ (0 ≤ mb ∧ mb ≤ 512) ∧ (0 ≤ db ∧ db ≤ 256)
          ∧ (0 ≤ sb ∧ sb ≤ 511) →
      (spi_transaction P (transaction_args id cb cd ab ad mb db sb) s).2.calls
          = s.calls ++ [Call.transaction id cb (toU16 cd) ab (toU32 ad) mb db sb] ∧
        ((P.platform_spi_transaction s.hw id cb (toU16 cd) ab (toU32 ad) mb db sb).1 = false →
          (spi_transaction P (transaction_args id cb cd ab ad mb db sb) s).1
            = Outcome.raise LuaError.failed)) ∧
    (¬ ((0 ≤ cb ∧ cb ≤ 16) ∧ (0 ≤ ab ∧ ab ≤ 32) ∧ (0 ≤ mb ∧ mb ≤ 512) ∧ (0 ≤ db ∧ db ≤ 256)
          ∧ (0 ≤ sb ∧ sb ≤ 511)) →
      (spi_transaction P (transaction_args id cb cd ab ad mb db sb) s).2 = s ∧
        (spi_transaction P (transaction_args id cb cd ab ad mb db sb) s).1
          ≠ Outcome.ret []) := by
  rw [spi_transaction_eq P s id cb cd ab ad mb db sb hid]
  refine ⟨?_, ?_, ?_⟩
  · split_ifs with h1 h2 h3 h4 h5 h6
    · simp; omega
    · simp; omega
    · simp; omega
    · simp; omega
    · simp; omega
    · simp [h6]; omega
    · simp [h6]
  · intro hr
    rw [if_neg (by omega), if_neg (by omega), if_neg (by omega), if_neg (by omega),
      if_neg (by omega)]
    constructor
    · split_ifs <;> rfl
    · intro hf
      rw [hf]
      rfl
  · intro hr
    split_ifs with h1 h2 h3 h4 h5 h6
    · exact ⟨rfl, by simp⟩
    · exact ⟨rfl, by simp⟩
    · exact ⟨rfl, by simp⟩
    · exact ⟨rfl, by simp⟩
    · exact ⟨rfl, by simp⟩
    · exact absurd (by omega) hr
    · exact absurd (by omega) hr

/-- Witness of C6: all five segments at their maxima on the loopback platform
are accepted with exactly one call of the runner; the same request with no
budget left on the platform `budget` raises "failed". -/
theorem transaction_acceptance_witness :
    ((spi_transaction loopback (transaction_args 1 16 43981 32 (-1) 512 256 511)
        (State.init ())).1 = Outcome.ret [] ∧
      (spi_transaction loopback (transaction_args 1 16 43981 32 (-1) 512 256 511)
        (State.init ())).2.calls = [Call.transaction 1 16 43981 32 4294967295 512 256 511]) ∧
    (spi_transaction budget (transaction_args 1 16 43981 32 (-1) 512 256 511)
        (State.init 0)).1 = Outcome.raise LuaError.failed := by
  have h1 := transaction_acceptance loopback (State.init ()) 1 16 43981 32 (-1) 512 256 511
    (by decide)
  have h2 := transaction_acceptance budget (State.init 0) 1 16 43981 32 (-1) 512 256 511
    (by decide)
  refine ⟨⟨h1.1.mpr ⟨by decide, rfl⟩, ?_⟩, (h2.2.1 (by decide)).2 (by decide)⟩
  rw [(h1.2.1 (by decide)).1]
  decide

/-! ## `spi_setup` -/

/-- `spi_setup` on integer arguments and a known port, with the argument
checks resolved; `d` is the divider after the substitution of lines 41-44. -/
theorem spi_setup_eq {H : Type} (P : Platform H) (s : State H)
    (id mode cpol cpha databits clock_div : Int) (fd : Option Int)
    (hid : platform_spi_exists id = true) :
    spi_setup P (setup_args id mode cpol cpha databits clock_div fd) s
      = if mode ≠ P.PLATFORM_SPI_SLAVE ∧ mode ≠ P.PLATFORM_SPI_MASTER then
          (Outcome.raise LuaError.wrong_arg_type, s)
        else if cpol ≠ P.PLATFORM_SPI_CPOL_LOW ∧ cpol ≠ P.PLATFORM_SPI_CPOL_HIGH then
          (Outcome.raise LuaError.wrong_arg_type, s)
        else if cpha ≠ P.PLATFORM_SPI_CPHA_LOW ∧ cpha ≠ P.PLATFORM_SPI_CPHA_HIGH then
          (Outcome.raise LuaError.wrong_arg_type, s)
        else if databits < 0 ∨ databits > 32 then (Outcome.raise LuaError.out_of_range, s)
        else if fd.getD 1 ≠ 0 ∧ fd.getD 1 ≠ 1 then (Outcome.raise LuaError.out_of_range, s)
        else
          (Outcome.ret [lua_pushinteger (toU32 (P.platform_spi_setup s.hw id mode cpol cpha
              (if toU32 clock_div < 4 then 8 else toU32 clock_div) (fd.getD 1)).1)],
            { hw := (P.platform_spi_setup s.hw id mode cpol cpha
                (if toU32 clock_div < 4 then 8 else toU32 clock_div) (fd.getD 1)).2,
              calls := s.calls ++ [Call.setup id mode cpol cpha
                (if toU32 clock_div < 4 then 8 else toU32 clock_div) (fd.getD 1)],
              spi_databits := Function.update s.spi_databits id (toU8 databits) }) := by
  cases fd with
  | none =>
    simp only [spi_setup, setup_args, luaL_checkinteger, luaL_optinteger, List.get?, hid,
      Bool.not_true, Bool.false_eq_true, if_false, List.append_nil, Option.getD_none]
  | some f =>
    simp only [spi_setup, setup_args, luaL_checkinteger, luaL_optinteger, List.get?, hid,
      Bool.not_true, Bool.false_eq_true, if_false, List.cons_append, List.nil_append,
      Option.getD_some]

/-- C7 as stated fails for a negative divider: `spi.setup( 0, 1, 0, 0, 8, -1 )`
on the loopback platform passes validation and -1 < 4, yet the divider handed
to `platform_spi_setup` is 4294967295 and not 8. -/
theorem setup_negative_divider_not_substituted :
    (-1 : Int) < 4 ∧
    (spi_setup loopback (setup_args 0 1 0 0 8 (-1) none) (State.init ())).2.calls
      = [Call.setup 0 1 0 0 4294967295 1] ∧
    (spi_setup loopback (setup_args 0 1 0 0 8 (-1) none) (State.init ())).2.calls
      ≠ [Call.setup 0 1 0 0 8 1] := by
  decide

/-- C7, amended: configure clock-divider substitution.  For every call of
`spi_setup` that passes validation, the divider is taken as an unsigned 32-bit
value: a requested clock_div in 0..3 is replaced by 8, a requested clock_div
of 4 or more is handed on unchanged, and a negative clock_div is handed on as
clock_div + 2^32.  The platform's setup is called once with that divider and
the single result of the call is the value it returns. -/
theorem setup_clock_divider {H : Type} (P : Platform H) (s : State H)
    (id mode cpol cpha databits clock_div : Int) (fd : Option Int)
    (hid : platform_spi_exists id = true)
    (hmode : mode = P.PLATFORM_SPI_MASTER ∨ mode = P.PLATFORM_SPI_SLAVE)
    (hcpol : cpol = P.PLATFORM_SPI_CPOL_LOW ∨ cpol = P.PLATFORM_SPI_CPOL_HIGH)
    (hcpha : cpha = P.PLATFORM_SPI_CPHA_LOW ∨ cpha = P.PLATFORM_SPI_CPHA_HIGH)
    (hbits : 0 ≤ databits ∧ databits ≤ 32) (hfd : fd.getD 1 = 0 ∨ fd.getD 1 = 1)
    (hclk : -2147483648 ≤ clock_div ∧ clock_div ≤ 2147483647) :
    ∃ d : Int,
      (0 ≤ clock_div ∧ clock_div < 4 → d = 8) ∧
      (4 ≤ clock_div → d = clock_div) ∧
      (clock_div < 0 → d = clock_div + 4294967296) ∧
      (spi_setup P (setup_args id mode cpol cpha databits clock_div fd) s).2.calls
        = s.calls ++ [Call.setup id mode cpol cpha d (fd.getD 1)] ∧
      (spi_setup P (setup_args id mode cpol cpha databits clock_div fd) s).1
        = Outcome.ret [lua_pushinteger
            (toU32 (P.platform_spi_setup s.hw id mode cpol cpha d (fd.getD 1)).1)] := by
  refine ⟨if toU32 clock_div < 4 then 8 else toU32 clock_div, ?_, ?_, ?_, ?_⟩
  · intro h
    have : toU32 clock_div < 4 := by unfold toU32; omega
    rw [if_pos this]
  · intro h
    have : ¬ toU32 clock_div < 4 := by unfold toU32; omega
    rw [if_neg this]
    unfold toU32; omega
  · intro h
    have : ¬ toU32 clock_div < 4 := by unfold toU32; omega
    rw [if_neg this]
    unfold toU32; omega
  · rw [spi_setup_eq P s id mode cpol cpha databits clock_div fd hid]
    rw [if_neg (by tauto), if_neg (by tauto), if_neg (by tauto), if_neg (by omega),
      if_neg (by tauto)]
    exact ⟨rfl, rfl⟩

/-- Witness of C7 on the loopback platform, which reports the divider it was
given: clock_div = 2 yields 8 and clock_div = 10 yields 10. -/
theorem setup_clock_divider_witness :
    (spi_setup loopback (setup_args 1 1 0 0 8 2 none) (State.init ())).1
      = Outcome.ret [LuaVal.number 8] ∧
    (spi_setup loopback (setup_args 1 1 0 0 8 10 (some 0)) (State.init ())).1
      = Outcome.ret [LuaVal.number 10] := by
  obtain ⟨d, h03, _, _, _, hret⟩ := setup_clock_divider loopback (State.init ()) 1 1 0 0 8 2 none
    (by decide) (by decide) (by decide) (by decide) (by decide) (by decide) (by decide)
  obtain ⟨e, _, h4, _, _, hret2⟩ := setup_clock_divider loopback (State.init ()) 1 1 0 0 8 10
    (some 0) (by decide) (by decide) (by decide) (by decide) (by decide) (by decide) (by decide)
  rw [hret, hret2, h03 (by decide), h4 (by decide)]
  exact ⟨by decide, by decide⟩

/-- C8: configure validation.  For a known port, `spi_setup` returns (one
value) exactly when mode is master or slave, cpol is low or high, cpha is low
or high, 0 <= databits <= 32 and full_duplex (1 when left out) is 0 or 1; then
the platform's setup is called once.  When one of these is violated the call
raises "wrong arg type" or "out of range" and the state is what it was before
the call: no platform call is issued and `spi_databits` is unchanged for
every port. -/
theorem setup_validation {H : Type} (P : Platform H) (s : State H)
    (id mode cpol cpha databits clock_div : Int) (fd : Option Int)
    (hid : platform_spi_exists id = true) :
    ((∃ v, (spi_setup P (setup_args id mode cpol cpha databits clock_div fd) s).1
          = Outcome.ret [v]) ↔
      ((mode = P.PLATFORM_SPI_MASTER ∨ mode = P.PLATFORM_SPI_SLAVE) ∧
        (cpol = P.PLATFORM_SPI_CPOL_LOW ∨ cpol = P.PLATFORM_SPI_CPOL_HIGH) ∧
        (cpha = P.PLATFORM_SPI_CPHA_LOW ∨ cpha = P.PLATFORM_SPI_CPHA_HIGH) ∧
        (0 ≤ databits ∧ databits ≤ 32) ∧ (fd.getD 1 = 0 ∨ fd.getD 1 = 1))) ∧
    (((mode = P.PLATFORM_SPI_MASTER ∨ mode = P.PLATFORM_SPI_SLAVE) ∧
        (cpol = P.PLATFORM_SPI_CPOL_LOW ∨ cpol = P.PLATFORM_SPI_CPOL_HIGH) ∧
        (cpha = P.PLATFORM_SPI_CPHA_LOW ∨ cpha = P.PLATFORM_SPI_CPHA_HIGH) ∧
        (0 ≤ databits ∧ databits ≤ 32) ∧ (fd.getD 1 = 0 ∨ fd.getD 1 = 1)) →
      ∃ d, (spi_setup P (setup_args id mode cpol cpha databits clock_div fd) s).2.calls
          = s.calls ++ [Call.setup id mode cpol cpha d (fd.getD 1)]) ∧
    (¬ ((mode = P.PLATFORM_SPI_MASTER ∨ mode = P.PLATFORM_SPI_SLAVE) ∧
        (cpol = P.PLATFORM_SPI_CPOL_LOW ∨ cpol = P.PLATFORM_SPI_CPOL_HIGH) ∧
        (cpha = P.PLATFORM_SPI_CPHA_LOW ∨ cpha = P.PLATFORM_SPI_CPHA_HIGH) ∧
        (0 ≤ databits ∧ databits ≤ 32) ∧ (fd.getD 1 = 0 ∨ fd.getD 1 = 1)) →
      ((spi_setup P (setup_args id mode cpol cpha databits clock_div fd) s).1
          = Outcome.raise LuaError.wrong_arg_type ∨
        (spi_setup P (setup_args id mode cpol cpha databits clock_div fd) s).1
          = Outcome.raise LuaError.out_of_range) ∧
      (spi_setup P (setup_args id mode cpol cpha databits clock_div fd) s).2 = s) := by
  rw [spi_setup_eq P s id mode cpol cpha databits clock_div fd hid]
  generalize (if toU32 clock_div < 4 then (8 : Int) else toU32 clock_div) = d
  by_cases hv : ((mode = P.PLATFORM_SPI_MASTER ∨ mode = P.PLATFORM_SPI_SLAVE) ∧
        (cpol = P.PLATFORM_SPI_CPOL_LOW ∨ cpol = P.PLATFORM_SPI_CPOL_HIGH) ∧
        (cpha = P.PLATFORM_SPI_CPHA_LOW ∨ cpha = P.PLATFORM_SPI_CPHA_HIGH) ∧
        (0 ≤ databits ∧ databits ≤ 32) ∧ (fd.getD 1 = 0 ∨ fd.getD 1 = 1))
  · obtain ⟨hm, hcl, hch, hbits, hfd⟩ := hv
    rw [if_neg (by tauto), if_neg (by tauto), if_neg (by tauto), if_neg (by omega),
      if_neg (by tauto)]
    refine ⟨⟨fun _ => ⟨hm, hcl, hch, hbits, hfd⟩, fun _ => ⟨_, rfl⟩⟩, fun _ => ⟨_, rfl⟩, ?_⟩
    intro hn
    exact absurd ⟨hm, hcl, hch, hbits, hfd⟩ hn
  · have hcases : (mode ≠ P.PLATFORM_SPI_SLAVE ∧ mode ≠ P.PLATFORM_SPI_MASTER) ∨
        (cpol ≠ P.PLATFORM_SPI_CPOL_LOW ∧ cpol ≠ P.PLATFORM_SPI_CPOL_HIGH) ∨
        (cpha ≠ P.PLATFORM_SPI_CPHA_LOW ∧ cpha ≠ P.PLATFORM_SPI_CPHA_HIGH) ∨
        (databits < 0 ∨ databits > 32) ∨ (fd.getD 1 ≠ 0 ∧ fd.getD 1 ≠ 1) := by
      by_contra hnone
      apply hv
      simp only [not_or, not_and_or, not_not, not_lt, not_le] at hnone
      obtain ⟨a, b, c, e, f⟩ := hnone
      exact ⟨by tauto, by tauto, by tauto, by omega, by tauto⟩
    have hres : ∀ (r : Outcome × State H),
        ((r.1 = Outcome.raise LuaError.wrong_arg_type ∨ r.1 = Outcome.raise LuaError.out_of_range)
          ∧ r.2 = s) →
        ((∃ v, r.1 = Outcome.ret [v]) ↔ False) ∧
        (False → ∃ d, r.2.calls = s.calls ++ [Call.setup id mode cpol cpha d (fd.getD 1)]) ∧
        (True → (r.1 = Outcome.raise LuaError.wrong_arg_type ∨
            r.1 = Outcome.raise LuaError.out_of_range) ∧ r.2 = s) := by
      intro r hr
      refine ⟨⟨?_, False.elim⟩, False.elim, fun _ => hr⟩
      rintro ⟨v, hvv⟩
      rcases hr.1 with h | h <;> rw [h] at hvv <;> cases hvv
    have hgoal := hres _ (show
      (((if mode ≠ P.PLATFORM_SPI_SLAVE ∧ mode ≠ P.PLATFORM_SPI_MASTER then
          (Outcome.raise LuaError.wrong_arg_type, s)
        else if cpol ≠ P.PLATFORM_SPI_CPOL_LOW ∧ cpol ≠ P.PLATFORM_SPI_CPOL_HIGH then
          (Outcome.raise LuaError.wrong_arg_type, s)
        else if cpha ≠ P.PLATFORM_SPI_CPHA_LOW ∧ cpha ≠ P.PLATFORM_SPI_CPHA_HIGH then
          (Outcome.raise LuaError.wrong_arg_type, s)
        else if databits < 0 ∨ databits > 32 then (Outcome.raise LuaError.out_of_range, s)
        else if fd.getD 1 ≠ 0 ∧ fd.getD 1 ≠ 1 then (Outcome.raise LuaError.out_of_range, s)
        else
          (Outcome.ret [lua_pushinteger (toU32 (P.platform_spi_setup s.hw id mode cpol cpha
              d (fd.getD 1)).1)],
            { hw := (P.platform_spi_setup s.hw id mode cpol cpha d (fd.getD 1)).2,
              calls := s.calls ++ [Call.setup id mode cpol cpha d (fd.getD 1)],
              spi_databits := Function.update s.spi_databits id (toU8 databits) })
          : Outcome × State H).1 = Outcome.raise LuaError.wrong_arg_type ∨ _) ∧ _) from by
      split_ifs with h1 h2 h3 h4 h5
      · exact ⟨Or.inl rfl, rfl⟩
      · exact ⟨Or.inl rfl, rfl⟩
      · exact ⟨Or.inl rfl, rfl⟩
      · exact ⟨Or.inr rfl, rfl⟩
      · exact ⟨Or.inr rfl, rfl⟩
      · exfalso
        rcases hcases with h | h | h | h | h
        · exact h1 h
        · exact h2 h
        · exact h3 h
        · exact h4 h
        · exact h5 h)
    refine ⟨⟨fun h => (hgoal.1.mp h).elim, fun h => absurd h hv⟩, fun h => absurd h hv, ?_⟩
    intro _
    exact hgoal.2.2 trivial

/-- Witness of C8 on the loopback platform: databits = 0 is accepted, and
databits = 33 is refused with the state unchanged. -/
theorem setup_validation_witness :
    (∃ v, (spi_setup loopback (setup_args 1 1 0 0 0 8 none) (State.init ())).1
        = Outcome.ret [v]) ∧
    (spi_setup loopback (setup_args 1 1 0 0 33 8 none) (State.init ())).1
        = Outcome.raise LuaError.out_of_range ∧
    (spi_setup loopback (setup_args 1 1 0 0 33 8 none) (State.init ())).2.calls = [] := by
  have h0 := setup_validation loopback (State.init ()) 1 1 0 0 0 8 none (by decide)
  have h33 := setup_validation loopback (State.init ()) 1 1 0 0 33 8 none (by decide)
  refine ⟨h0.1.mpr (by decide), by decide, ?_⟩
  rw [(h33.2.2 (by decide)).2]
  rfl

/-! ## Streaming: what the loops do to the state -/

theorem Streamed.refl {H : Type} (id : Int) (s : State H) : Streamed id s s :=
  ⟨rfl, [], by simp, by intro c hc; cases hc⟩

theorem Streamed.trans {H : Type} {id : Int} {s s1 s2 : State H}
    (h1 : Streamed id s s1) (h2 : Streamed id s1 s2) : Streamed id s s2 := by
  obtain ⟨ht1, n1, hc1, hs1⟩ := h1
  obtain ⟨ht2, n2, hc2, hs2⟩ := h2
  refine ⟨ht2.trans ht1, n1 ++ n2, by rw [hc2, hc1, List.append_assoc], ?_⟩
  intro c hc
  rcases List.mem_append.mp hc with h | h
  · exact hs1 c h
  · have := hs2 c h
    rw [ht1] at this
    exact this

/-- One `platform_spi_send_recv` on port `id` with the stored width. -/
theorem Streamed.send_recv {H : Type} (id d : Int) (h : H) (s : State H) :
    Streamed id s
      { s with hw := h, calls := s.calls ++ [Call.send_recv id (s.spi_databits id) d] } := by
  refine ⟨rfl, [Call.send_recv id (s.spi_databits id) d], rfl, ?_⟩
  intro c hc
  rw [List.mem_singleton] at hc
  exact ⟨d, Or.inr hc⟩

/-- One `platform_spi_send` on port `id` with the stored width. -/
theorem Streamed.send {H : Type} (id d : Int) (h : H) (s : State H) :
    Streamed id s
      { s with hw := h, calls := s.calls ++ [Call.send id (s.spi_databits id) d] } := by
  refine ⟨rfl, [Call.send id (s.spi_databits id) d], rfl, ?_⟩
  intro c hc
  rw [List.mem_singleton] at hc
  exact ⟨d, Or.inl hc⟩

theorem recv_loop_streamed {H : Type} (P : Platform H) (id dflt : Int) :
    ∀ (n : Nat) (b : List Int) (s : State H), Streamed id s (recv_loop P id dflt n b s).2 := by
  intro n
  induction n with
  | zero => intro b s; exact Streamed.refl id s
  | succ n ih =>
    intro b s
    simp only [recv_loop]
    exact Streamed.trans (Streamed.send_recv id _ _ s) (ih _ _)

theorem string_loop_streamed {H : Type} (P : Platform H) (id recv : Int) :
    ∀ (bytes : List Int) (i : Int) (b : List Int) (s : State H),
      Streamed id s (string_loop P id recv bytes i b s).2 := by
  intro bytes
  induction bytes with
  | nil => intro i b s; exact Streamed.refl id s
  | cons c cs ih =>
    intro i b s
    simp only [string_loop]
    split_ifs
    · exact Streamed.trans (Streamed.send_recv id _ _ s) (ih _ _ _)
    · exact Streamed.trans (Streamed.send id _ _ s) (ih _ _ _)

theorem table_loop_streamed {H : Type} (P : Platform H) (id recv tos : Int) :
    ∀ (elems : List (Option Int)) (i : Int) (stack : List LuaVal) (s : State H),
      Streamed id s (table_loop P id recv tos elems i stack s).2 := by
  intro elems
  induction elems with
  | nil => intro i stack s; exact Streamed.refl id s
  | cons e es ih =>
    intro i stack s
    simp only [table_loop]
    split
    · exact Streamed.refl id s
    · split
      · exact Streamed.refl id s
      · split_ifs
        · split
          · exact Streamed.send_recv id _ _ s
          · split
            · exact Streamed.send_recv id _ _ s
            · exact Streamed.trans (Streamed.send_recv id _ _ s) (ih _ _ _)
        · exact Streamed.trans (Streamed.send id _ _ s) (ih _ _ _)

theorem send_recv_finish_state {H : Type} (tos : Int) (stack : List LuaVal)
    (pushed wrote : Int) (s : State H) : (send_recv_finish tos stack pushed wrote s).2 = s := by
  unfold send_recv_finish
  repeat' split
  all_goals rfl

theorem items_loop_streamed {H : Type} (P : Platform H) (id recv tos : Int) :
    ∀ (items : List LuaVal) (argn : Int) (stack : List LuaVal) (pushed wrote : Int)
      (s : State H), Streamed id s (items_loop P id recv tos items argn stack pushed wrote s).2 := by
  intro items
  induction items with
  | nil =>
    intro argn stack pushed wrote s
    simp only [items_loop, send_recv_finish_state]
    exact Streamed.refl id s
  | cons v vs ih =>
    intro argn stack pushed wrote s
    cases v with
    | nil => simp only [items_loop]; exact Streamed.refl id s
    | boolean b => simp only [items_loop]; exact Streamed.refl id s
    | number n =>
      simp only [items_loop]
      repeat' split
      all_goals first
        | exact Streamed.send_recv id _ _ s
        | exact Streamed.trans (Streamed.send_recv id _ _ s) (ih _ _ _ _ _)
        | exact Streamed.trans (Streamed.send id _ _ s) (ih _ _ _ _ _)
    | string bs =>
      simp only [items_loop]
      have hs := string_loop_streamed P id recv bs 0 [] s
      split
      · exact hs
      · split_ifs <;>
          first
          | (rw [send_recv_finish_state]; exact hs)
          | exact Streamed.trans hs (ih _ _ _ _ _)
    | table arr =>
      simp only [items_loop]
      split
      · exact Streamed.refl id s
      · rename_i x0 stack0 heq0
        have ht := table_loop_streamed P id recv tos arr 0 stack0 s
        split
        · rename_i o s1 heq
          rw [heq] at ht
          exact ht
        · rename_i i stack1 s1 heq
          rw [heq] at ht
          split_ifs <;>
            first
            | (rw [send_recv_finish_state]; exact ht)
            | exact Streamed.trans ht (ih _ _ _ _ _)

/-! ## Every module function: effect on the table and on the trace -/

theorem Streamed.width_respected {H : Type} {id : Int} {s s1 : State H}
    (h : Streamed id s s1) :
    ∃ new, s1.calls = s.calls ++ new ∧ width_respected s.spi_databits new := by
  obtain ⟨_, new, hc, hs⟩ := h
  refine ⟨new, hc, ?_⟩
  intro c hc i w d hcw
  obtain ⟨d1, h1⟩ := hs c hc
  rcases h1 with h1 | h1 <;> rcases hcw with h2 | h2 <;> rw [h1] at h2 <;> cases h2 <;> rfl

theorem spi_generic_send_recv_streamed {H : Type} (P : Platform H) (args : List LuaVal)
    (recv : Int) (s : State H) :
    ∃ id, Streamed id s (spi_generic_send_recv P args recv s).2 := by
  unfold spi_generic_send_recv
  cases luaL_checkinteger P (args.get? 0) 1 with
  | error e => exact ⟨0, Streamed.refl 0 s⟩
  | ok id0 =>
    simp only
    split_ifs
    · exact ⟨0, Streamed.refl 0 s⟩
    · exact ⟨0, Streamed.refl 0 s⟩
    · exact ⟨toU32 id0, items_loop_streamed P _ _ _ _ _ _ _ _ s⟩

theorem spi_recv_streamed {H : Type} (P : Platform H) (args : List LuaVal) (s : State H) :
    ∃ id, Streamed id s (spi_recv P args s).2 := by
  unfold spi_recv
  cases luaL_checkinteger P (args.get? 0) 1 with
  | error e => exact ⟨0, Streamed.refl 0 s⟩
  | ok id =>
    cases luaL_checkinteger P (args.get? 1) 2 with
    | error e => exact ⟨0, Streamed.refl 0 s⟩
    | ok size =>
      cases luaL_optinteger P (args.get? 2) 3 (toInt32 4294967295) with
      | error e => exact ⟨0, Streamed.refl 0 s⟩
      | ok dflt =>
        simp only
        split_ifs
        · exact ⟨0, Streamed.refl 0 s⟩
        · exact ⟨0, Streamed.refl 0 s⟩
        · exact ⟨id, recv_loop_streamed P id dflt _ _ s⟩

/-- The loop of `spi_set_mosi` issues buffer writes only. -/
theorem set_mosi_loop_quiet {H : Type} (P : Platform H) (id bitlen : Int) :
    ∀ (vals : List LuaVal) (argn offset : Int) (s : State H),
      ∃ new, (set_mosi_loop P id bitlen vals argn offset s).2.calls = s.calls ++ new ∧
        ∀ c ∈ new, ∃ o d, c = Call.set_mosi id o bitlen d := by
  intro vals
  induction vals with
  | nil => intro argn offset s; exact ⟨[], by simp [set_mosi_loop], by intro c hc; cases hc⟩
  | cons v vs ih =>
    intro argn offset s
    unfold set_mosi_loop
    cases luaL_checkinteger P (some v) argn with
    | error e => exact ⟨[], by simp, by intro c hc; cases hc⟩
    | ok d =>
      simp only
      split_ifs
      · exact ⟨[], by simp, by intro c hc; cases hc⟩
      · obtain ⟨new, hc, hs⟩ := ih (argn + 1) (toInt32 (offset + bitlen))
          { s with hw := (P.platform_spi_set_mosi s.hw id offset bitlen (toU32 d)).2,
                   calls := s.calls ++ [Call.set_mosi id offset bitlen (toU32 d)] }
        refine ⟨Call.set_mosi id offset bitlen (toU32 d) :: new, ?_, ?_⟩
        · rw [hc]; simp
        · intro c hcm
          rcases List.mem_cons.mp hcm with h | h
          · exact ⟨_, _, h⟩
          · exact hs c h
      · exact ⟨[Call.set_mosi id offset bitlen (toU32 d)], rfl, by
          intro c hc
          rw [List.mem_singleton] at hc
          exact ⟨_, _, hc⟩⟩

theorem spi_set_mosi_step {H : Type} (P : Platform H) (args : List LuaVal) (s : State H) :
    (spi_set_mosi P args s).2.spi_databits = s.spi_databits ∧
    ∃ new, (spi_set_mosi P args s).2.calls = s.calls ++ new ∧
      width_respected s.spi_databits new := by
  have hnil : ∃ new, s.calls = s.calls ++ new ∧ width_respected s.spi_databits new :=
    ⟨[], by simp, by intro c hc; cases hc⟩
  unfold spi_set_mosi
  cases luaL_checkinteger P (args.get? 0) 1 with
  | error e => exact ⟨rfl, hnil⟩
  | ok id =>
    cases luaL_checkinteger P (args.get? 1) 2 with
    | error e => exact ⟨rfl, hnil⟩
    | ok offset =>
      cases luaL_checkinteger P (args.get? 2) 3 with
      | error e => exact ⟨rfl, hnil⟩
      | ok bitlen =>
        simp only
        split_ifs
        · exact ⟨rfl, hnil⟩
        · exact ⟨rfl, hnil⟩
        · exact ⟨rfl, hnil⟩
        · exact ⟨rfl, hnil⟩
        · refine ⟨set_mosi_loop_frame P id bitlen _ _ _ s, ?_⟩
          obtain ⟨new, hc, hs⟩ := set_mosi_loop_quiet P id bitlen (args.drop 3) 4 offset s
          refine ⟨new, hc, ?_⟩
          intro c hcm i w d hcw
          obtain ⟨o, d1, h1⟩ := hs c hcm
          rcases hcw with h2 | h2 <;> rw [h1] at h2 <;> cases h2

theorem spi_get_miso_step {H : Type} (P : Platform H) (args : List LuaVal) (s : State H) :
    (spi_get_miso P args s).2.spi_databits = s.spi_databits ∧
    ∃ new, (spi_get_miso P args s).2.calls = s.calls ++ new ∧
      width_respected s.spi_databits new := by
  have hnil : ∃ new, s.calls = s.calls ++ new ∧ width_respected s.spi_databits new :=
    ⟨[], by simp, by intro c hc; cases hc⟩
  unfold spi_get_miso
  cases luaL_checkinteger P (args.get? 0) 1 with
  | error e => exact ⟨rfl, hnil⟩
  | ok id =>
    cases luaL_checkinteger P (args.get? 1) 2 with
    | error e => exact ⟨rfl, hnil⟩
    | ok offset =>
      cases luaL_checkinteger P (args.get? 2) 3 with
      | error e => exact ⟨rfl, hnil⟩
      | ok bitlen =>
        cases luaL_checkinteger P (args.get? 3) 4 with
        | error e => exact ⟨rfl, hnil⟩
        | ok num =>
          simp only
          split_ifs
          · exact ⟨rfl, hnil⟩
          · exact ⟨rfl, hnil⟩
          · exact ⟨rfl, hnil⟩
          · exact ⟨rfl, hnil⟩
          all_goals
            refine ⟨get_miso_loop_frame P id offset bitlen _ _ _ s, _,
              get_miso_loop_calls P id offset bitlen _ _ [] s (by simp), ?_⟩
            intro c hcm i w d hcw
            obtain ⟨j, _, hj⟩ := List.mem_map.mp hcm
            rcases hcw with h2 | h2 <;> rw [← hj] at h2 <;> cases h2

theorem spi_transaction_step {H : Type} (P : Platform H) (args : List LuaVal) (s : State H) :
    (spi_transaction P args s).2.spi_databits = s.spi_databits ∧
    ∃ new, (spi_transaction P args s).2.calls = s.calls ++ new ∧
      width_respected s.spi_databits new := by
  have hnil : s.spi_databits = s.spi_databits ∧
      ∃ new, s.calls = s.calls ++ new ∧ width_respected s.spi_databits new :=
    ⟨rfl, [], by simp, by intro c hc; cases hc⟩
  have hone : ∀ (h : H) (c : Call), (∀ i w d, c ≠ Call.send i w d ∧ c ≠ Call.send_recv i w d) →
      ({ s with hw := h, calls := s.calls ++ [c] } : State H).spi_databits = s.spi_databits ∧
      ∃ new, ({ s with hw := h, calls := s.calls ++ [c] } : State H).calls = s.calls ++ new ∧
        width_respected s.spi_databits new := by
    intro h c hc
    refine ⟨rfl, [c], rfl, ?_⟩
    intro c1 hc1 i w d hcw
    rw [List.mem_singleton] at hc1
    subst hc1
    rcases hcw with h2 | h2
    · exact absurd h2 (hc i w d).1
    · exact absurd h2 (hc i w d).2
  unfold spi_transaction
  repeat' split
  all_goals first
    | exact hnil
    | (simp only
       split_ifs <;>
         exact hone _ (Call.transaction _ _ _ _ _ _ _ _)
           (by intro i w d; constructor <;> intro h <;> cases h))

/-- `spi_setup` changes the table at most at the port read from its first
argument, stores a width in 0..32 there, and issues no stream call. -/
theorem spi_setup_step {H : Type} (P : Platform H) (args : List LuaVal) (s : State H) :
    (∀ p, luaL_checkinteger P (args.get? 0) 1 ≠ Except.ok p →
      (spi_setup P args s).2.spi_databits p = s.spi_databits p) ∧
    ((∀ p, 0 ≤ s.spi_databits p ∧ s.spi_databits p ≤ 32) →
      ∀ p, 0 ≤ (spi_setup P args s).2.spi_databits p ∧
        (spi_setup P args s).2.spi_databits p ≤ 32) ∧
    ∃ new, (spi_setup P args s).2.calls = s.calls ++ new ∧
      width_respected s.spi_databits new := by
  have hnil : ∀ (x : Except LuaError Int), (∀ p, x ≠ Except.ok p →
        s.spi_databits p = s.spi_databits p) ∧
      ((∀ p, 0 ≤ s.spi_databits p ∧ s.spi_databits p ≤ 32) →
        ∀ p, 0 ≤ s.spi_databits p ∧ s.spi_databits p ≤ 32) ∧
      ∃ new, s.calls = s.calls ++ new ∧ width_respected s.spi_databits new :=
    fun _ => ⟨fun _ _ => rfl, fun h => h, [], by simp, by intro c hc; cases hc⟩
  unfold spi_setup
  cases h0 : luaL_checkinteger P (args.get? 0) 1 with
  | error e => exact hnil _
  | ok id =>
    have hone : ∀ (s1 : State H) (c : Call) (db : Int),
        (∀ i w d, c ≠ Call.send i w d ∧ c ≠ Call.send_recv i w d) → 0 ≤ db ∧ db ≤ 32 →
        s1.calls = s.calls ++ [c] →
        s1.spi_databits = Function.update s.spi_databits id (toU8 db) →
        (∀ p, Except.ok id ≠ (Except.ok p : Except LuaError Int) →
          s1.spi_databits p = s.spi_databits p) ∧
        ((∀ p, 0 ≤ s.spi_databits p ∧ s.spi_databits p ≤ 32) →
          ∀ p, 0 ≤ s1.spi_databits p ∧ s1.spi_databits p ≤ 32) ∧
        ∃ new, s1.calls = s.calls ++ new ∧ width_respected s.spi_databits new := by
      intro s1 c db hc hdb hcalls htbl
      refine ⟨?_, ?_, [c], hcalls, ?_⟩
      · intro p hp
        have hne : p ≠ id := by
          intro heq
          apply hp
          rw [heq]
        rw [htbl, Function.update_noteq hne]
      · intro hall p
        rw [htbl]
        by_cases hp : p = id
        · subst hp
          simp only [Function.update_same]
          unfold toU8
          omega
        · simp only [Function.update_noteq hp]
          exact hall p
      · intro c1 hc1 i w d hcw
        rw [List.mem_singleton] at hc1
        subst hc1
        rcases hcw with h2 | h2
        · exact absurd h2 (hc i w d).1
        · exact absurd h2 (hc i w d).2
    simp only
    repeat' split
    all_goals first
      | exact hnil _
      | exact hone _ (Call.setup _ _ _ _ _ _) _
          (by intro i w d; constructor <;> intro h <;> cases h) (by omega) rfl rfl

/-- Any call through `spi_map`: the trace grows by calls whose streamed units
have the stored width of their port, the table entry of a port changes only
by a `spi.setup` on that port, and widths in 0..32 stay in 0..32. -/
theorem spi_map_step {H : Type} (P : Platform H) (op : Op) (s : State H) :
    (∀ p, ¬ configures P p op → (spi_map P op s).2.spi_databits p = s.spi_databits p) ∧
    ((∀ p, 0 ≤ s.spi_databits p ∧ s.spi_databits p ≤ 32) →
      ∀ p, 0 ≤ (spi_map P op s).2.spi_databits p ∧ (spi_map P op s).2.spi_databits p ≤ 32) ∧
    ∃ new, (spi_map P op s).2.calls = s.calls ++ new ∧ width_respected s.spi_databits new := by
  have hframe : ∀ (s1 : State H), s1.spi_databits = s.spi_databits →
      (∃ new, s1.calls = s.calls ++ new ∧ width_respected s.spi_databits new) →
      (∀ p, s1.spi_databits p = s.spi_databits p) ∧
      ((∀ p, 0 ≤ s.spi_databits p ∧ s.spi_databits p ≤ 32) →
        ∀ p, 0 ≤ s1.spi_databits p ∧ s1.spi_databits p ≤ 32) ∧
      ∃ new, s1.calls = s.calls ++ new ∧ width_respected s.spi_databits new := by
    intro s1 ht hc
    refine ⟨fun p => by rw [ht], fun hall p => by rw [ht]; exact hall p, hc⟩
  cases op with
  | setup args =>
    have h := spi_setup_step P args s
    exact ⟨fun p hp => h.1 p hp, h.2.1, h.2.2⟩
  | send args =>
    obtain ⟨id, hs⟩ := spi_generic_send_recv_streamed P args 0 s
    have h := hframe _ hs.1 hs.width_respected
    exact ⟨fun p _ => h.1 p, h.2.1, h.2.2⟩
  | send_recv args =>
    obtain ⟨id, hs⟩ := spi_generic_send_recv_streamed P args 1 s
    have h := hframe _ hs.1 hs.width_respected
    exact ⟨fun p _ => h.1 p, h.2.1, h.2.2⟩
  | recv args =>
    obtain ⟨id, hs⟩ := spi_recv_streamed P args s
    have h := hframe _ hs.1 hs.width_respected
    exact ⟨fun p _ => h.1 p, h.2.1, h.2.2⟩
  | set_mosi args =>
    have hs := spi_set_mosi_step P args s
    have h := hframe _ hs.1 hs.2
    exact ⟨fun p _ => h.1 p, h.2.1, h.2.2⟩
  | get_miso args =>
    have hs := spi_get_miso_step P args s
    have h := hframe _ hs.1 hs.2
    exact ⟨fun p _ => h.1 p, h.2.1, h.2.2⟩
  | transaction args =>
    have hs := spi_transaction_step P args s
    have h := hframe _ hs.1 hs.2
    exact ⟨fun p _ => h.1 p, h.2.1, h.2.2⟩

/-! ## Sequences of calls -/

/-- Over a sequence of calls none of which is a `spi.setup` on port `p`, the
width stored for `p` stays what it was and every unit streamed on `p` is sent
with that width. -/
theorem run_keeps_width {H : Type} (P : Platform H) (p : Int) :
    ∀ (ops : List Op) (s : State H), (∀ op ∈ ops, ¬ configures P p op) →
      (run P ops s).spi_databits p = s.spi_databits p ∧
      ∃ new, (run P ops s).calls = s.calls ++ new ∧
        ∀ c ∈ new, ∀ w d, (c = Call.send p w d ∨ c = Call.send_recv p w d) →
          w = s.spi_databits p := by
  intro ops
  induction ops with
  | nil =>
    intro s _
    exact ⟨rfl, [], by simp [run], by intro c hc; cases hc⟩
  | cons op ops ih =>
    intro s hops
    have hop : ¬ configures P p op := hops op (List.mem_cons_self _ _)
    have hrest : ∀ o ∈ ops, ¬ configures P p o := fun o ho => hops o (List.mem_cons_of_mem _ ho)
    obtain ⟨hframe, _, new1, hc1, hw1⟩ := spi_map_step P op s
    obtain ⟨ht2, new2, hc2, hw2⟩ := ih (spi_map P op s).2 hrest
    simp only [run]
    refine ⟨by rw [ht2, hframe p hop], new1 ++ new2, by rw [hc2, hc1, List.append_assoc], ?_⟩
    intro c hc w d hcw
    rcases List.mem_append.mp hc with h | h
    · exact hw1 c h p w d hcw
    · rw [← hframe p hop]
      exact hw2 c h w d hcw

theorem run_keeps_range {H : Type} (P : Platform H) :
    ∀ (ops : List Op) (s : State H), (∀ p, 0 ≤ s.spi_databits p ∧ s.spi_databits p ≤ 32) →
      ∀ p, 0 ≤ (run P ops s).spi_databits p ∧ (run P ops s).spi_databits p ≤ 32 := by
  intro ops
  induction ops with
  | nil => intro s h; exact h
  | cons op ops ih =>
    intro s h
    simp only [run]
    exact ih _ ((spi_map_step P op s).2.1 h)

/-- C9: configure stores the width that later streaming uses.  After a call
of `spi_setup` on port id that passes validation, the width stored for id is
databits, whatever the platform's setup reports; and over any following
sequence of calls of the module that contains no further `spi.setup` on id
(one whose first argument, a number or a string that spells one,
`luaL_checkinteger` reads as id), every unit handed to the platform on port id
(by `spi.send`, `spi.send_recv` or `spi.recv`) is sent with width exactly
databits. -/
theorem setup_width_used {H : Type} (P : Platform H) (s : State H)
    (id mode cpol cpha databits clock_div : Int) (fd : Option Int) (ops : List Op)
    (hid : platform_spi_exists id = true)
    (hmode : mode = P.PLATFORM_SPI_MASTER ∨ mode = P.PLATFORM_SPI_SLAVE)
    (hcpol : cpol = P.PLATFORM_SPI_CPOL_LOW ∨ cpol = P.PLATFORM_SPI_CPOL_HIGH)
    (hcpha : cpha = P.PLATFORM_SPI_CPHA_LOW ∨ cpha = P.PLATFORM_SPI_CPHA_HIGH)
    (hbits : 0 ≤ databits ∧ databits ≤ 32) (hfd : fd.getD 1 = 0 ∨ fd.getD 1 = 1)
    (hops : ∀ op ∈ ops, ¬ configures P id op) :
    (spi_setup P (setup_args id mode cpol cpha databits clock_div fd) s).2.spi_databits id
      = databits ∧
    (run P ops (spi_setup P (setup_args id mode cpol cpha databits clock_div fd) s).2).spi_databits
      id = databits ∧
    ∃ new,
      (run P ops (spi_setup P (setup_args id mode cpol cpha databits clock_div fd) s).2).calls
        = (spi_setup P (setup_args id mode cpol cpha databits clock_div fd) s).2.calls ++ new ∧
      ∀ c ∈ new, ∀ w d, (c = Call.send id w d ∨ c = Call.send_recv id w d) → w = databits := by
  have hstore : (spi_setup P (setup_args id mode cpol cpha databits clock_div fd) s).2.spi_databits
      id = databits := by
    rw [spi_setup_eq P s id mode cpol cpha databits clock_div fd hid]
    rw [if_neg (by tauto), if_neg (by tauto), if_neg (by tauto), if_neg (by omega),
      if_neg (by tauto)]
    simp only [Function.update_same]
    unfold toU8
    omega
  obtain ⟨hkeep, new, hc, hw⟩ := run_keeps_width P id ops
    (spi_setup P (setup_args id mode cpol cpha databits clock_div fd) s).2 hops
  refine ⟨hstore, by rw [hkeep, hstore], new, hc, ?_⟩
  intro c hcm w d hcw
  rw [← hstore]
  exact hw c hcm w d hcw

/-- Witness of C9 on the platform `budget`, whose setup reports another
divider than the one it is given: after `spi.setup( 1, 1, 0, 0, 16, 8 )` the
calls `spi.send( 1, 5, "A" )`, `spi.setup( "0", 1, 0, 0, 8, 8 )` (a setup of
port 0, its id passed as a string) and `spi.recv( 1, 2 )` stream on port 1
with width 16. -/
theorem setup_width_used_witness :
    (run budget
        [Op.send [LuaVal.number 1, LuaVal.number 5, LuaVal.string [65]],
          Op.setup [LuaVal.string [48], LuaVal.number 1, LuaVal.number 0, LuaVal.number 0,
            LuaVal.number 8, LuaVal.number 8],
          Op.recv [LuaVal.number 1, LuaVal.number 2]]
        (spi_setup budget (setup_args 1 1 0 0 16 8 none) (State.init 0)).2).spi_databits 1
      = 16 ∧
    (run budget
        [Op.send [LuaVal.number 1, LuaVal.number 5, LuaVal.string [65]],
          Op.setup [LuaVal.string [48], LuaVal.number 1, LuaVal.number 0, LuaVal.number 0,
            LuaVal.number 8, LuaVal.number 8],
          Op.recv [LuaVal.number 1, LuaVal.number 2]]
        (spi_setup budget (setup_args 1 1 0 0 16 8 none) (State.init 0)).2).calls
      = [Call.setup 1 1 0 0 8 1, Call.send 1 16 5, Call.send 1 16 65, Call.setup 0 1 0 0 8 1,
          Call.send_recv 1 16 4294967295, Call.send_recv 1 16 4294967295] := by
  have h := setup_width_used budget (State.init 0) 1 1 0 0 16 8 none
    [Op.send [LuaVal.number 1, LuaVal.number 5, LuaVal.string [65]],
      Op.setup [LuaVal.string [48], LuaVal.number 1, LuaVal.number 0, LuaVal.number 0,
        LuaVal.number 8, LuaVal.number 8],
      Op.recv [LuaVal.number 1, LuaVal.number 2]]
    (by decide) (by decide) (by decide) (by decide) (by decide) (by decide)
    (by
      intro op hop
      simp only [List.mem_cons, List.mem_singleton, List.not_mem_nil, or_false] at hop
      rcases hop with h | h | h <;> subst h <;>
        simp [configures, luaL_checkinteger, budget, decimal_str2integer])
  exact ⟨h.2.1, by decide⟩

/-- C19: Port Configuration invariant.  In every state reached from the
initial table (all widths 0) by any sequence of calls of the module's
functions with any arguments, successful or failing, the width stored for
every port lies in 0..32. -/
theorem width_invariant {H : Type} (P : Platform H) (h : H) (ops : List Op) (p : Int) :
    0 ≤ (run P ops (State.init h)).spi_databits p ∧
    (run P ops (State.init h)).spi_databits p ≤ 32 :=
  run_keeps_range P ops (State.init h)
    (fun _ => ⟨le_refl (0 : Int), show (0 : Int) ≤ 32 by norm_num⟩) p

/-- C20: Port Configuration frame.  `spi_send`, `spi_send_recv`, `spi_recv`,
`spi_set_mosi`, `spi_get_miso` and `spi_transaction` leave the table
`spi_databits` as it was, whatever their arguments and outcome; and a call of
`spi_setup`, whatever its outcome, leaves the entry of every port other than
the one `luaL_checkinteger` reads from its first argument (a number, or a
string that spells one) as it was. -/
theorem width_frame {H : Type} (P : Platform H) (args : List LuaVal) (s : State H) :
    (spi_send P args s).2.spi_databits = s.spi_databits ∧
    (spi_send_recv P args s).2.spi_databits = s.spi_databits ∧
    (spi_recv P args s).2.spi_databits = s.spi_databits ∧
    (spi_set_mosi P args s).2.spi_databits = s.spi_databits ∧
    (spi_get_miso P args s).2.spi_databits = s.spi_databits ∧
    (spi_transaction P args s).2.spi_databits = s.spi_databits ∧
    (∀ p, luaL_checkinteger P (args.get? 0) 1 ≠ Except.ok p →
      (spi_setup P args s).2.spi_databits p = s.spi_databits p) := by
  obtain ⟨_, h1⟩ := spi_generic_send_recv_streamed P args 0 s
  obtain ⟨_, h2⟩ := spi_generic_send_recv_streamed P args 1 s
  obtain ⟨_, h3⟩ := spi_recv_streamed P args s
  exact ⟨h1.1, h2.1, h3.1, (spi_set_mosi_step P args s).1, (spi_get_miso_step P args s).1,
    (spi_transaction_step P args s).1, (spi_setup_step P args s).1⟩

/-- Witness of C20: `spi.setup( "1", 1, 0, 0, 16, 8 )`, the port passed as a
string, stores 16 for port 1 and leaves the width of port 0 as it was. -/
theorem width_frame_witness :
    (spi_setup loopback
        [LuaVal.string [49], LuaVal.number 1, LuaVal.number 0, LuaVal.number 0,
          LuaVal.number 16, LuaVal.number 8] (State.init ())).2.spi_databits 0
      = (State.init ()).spi_databits 0 ∧
    (spi_setup loopback
        [LuaVal.string [49], LuaVal.number 1, LuaVal.number 0, LuaVal.number 0,
          LuaVal.number 16, LuaVal.number 8] (State.init ())).2.spi_databits 1 = 16 :=
  ⟨(width_frame loopback
        [LuaVal.string [49], LuaVal.number 1, LuaVal.number 0, LuaVal.number 0,
          LuaVal.number 16, LuaVal.number 8] (State.init ())).2.2.2.2.2.2 0
      (by simp [luaL_checkinteger, loopback, decimal_str2integer]), by decide⟩

/-! ## `spi_recv` -/

theorem recv_loop_bytes {H : Type} (P : Platform H) (id dflt : Int) :
    ∀ (n : Nat) (b : List Int) (s : State H),
      (recv_loop P id dflt n b s).1
        = b ++ (recv_words P id (s.spi_databits id) (toU32 dflt) n s.hw).map toU8 := by
  intro n
  induction n with
  | zero => intro b s; simp [recv_loop, recv_words]
  | succ n ih =>
    intro b s
    simp only [recv_loop, recv_words, ih, List.map_cons, List.append_assoc,
      List.singleton_append]

theorem recv_loop_calls {H : Type} (P : Platform H) (id dflt : Int) :
    ∀ (n : Nat) (b : List Int) (s : State H),
      (recv_loop P id dflt n b s).2.calls
        = s.calls ++ List.replicate n (Call.send_recv id (s.spi_databits id) (toU32 dflt)) := by
  intro n
  induction n with
  | zero => intro b s; simp [recv_loop]
  | succ n ih =>
    intro b s
    simp only [recv_loop, ih, List.replicate_succ, List.append_assoc, List.singleton_append]

theorem recv_words_length {H : Type} (P : Platform H) (id w word : Int) :
    ∀ (n : Nat) (h : H), (recv_words P id w word n h).length = n := by
  intro n
  induction n with
  | zero => intro h; rfl
  | succ n ih => intro h; simp [recv_words, ih]

/-- C14: recv.  For a known port, `spi.recv( id, 0 )` returns no result and
issues no platform call.  For size > 0 and the default word d (0xFFFFFFFF when
the argument is left out), `spi_recv` issues exactly size calls of
`platform_spi_send_recv`, each with the width stored for the port and the
outgoing word d, and returns exactly one result, a string of size bytes whose
j-th byte is the low 8 bits of the j-th echoed word. -/
theorem recv_result {H : Type} (P : Platform H) (s : State H) (id size : Int)
    (dflt : Option Int) (hid : platform_spi_exists id = true) :
    (size = 0 → spi_recv P (recv_args id size dflt) s = (Outcome.ret [], s)) ∧
    (0 < size →
      (spi_recv P (recv_args id size dflt) s).1
        = Outcome.ret [LuaVal.string
            ((recv_words P id (s.spi_databits id) (recv_word dflt) size.toNat s.hw).map toU8)] ∧
      (((recv_words P id (s.spi_databits id) (recv_word dflt) size.toNat s.hw).map toU8).length
          : Int) = size ∧
      (spi_recv P (recv_args id size dflt) s).2.calls
        = s.calls ++ List.replicate size.toNat
            (Call.send_recv id (s.spi_databits id) (recv_word dflt))) := by
  have hrun : spi_recv P (recv_args id size dflt) s
      = if size = 0 then (Outcome.ret [], s)
        else (Outcome.ret [LuaVal.string
              (recv_loop P id (dflt.getD (toInt32 4294967295)) size.toNat [] s).1],
            (recv_loop P id (dflt.getD (toInt32 4294967295)) size.toNat [] s).2) := by
    cases dflt with
    | none =>
      simp only [spi_recv, recv_args, luaL_checkinteger, luaL_optinteger, List.get?, hid,
        Bool.not_true, Bool.false_eq_true, if_false, List.append_nil, Option.getD_none]
    | some d =>
      simp only [spi_recv, recv_args, luaL_checkinteger, luaL_optinteger, List.get?, hid,
        Bool.not_true, Bool.false_eq_true, if_false, List.cons_append, List.nil_append,
        Option.getD_some]
  have hword : toU32 (dflt.getD (toInt32 4294967295)) = recv_word dflt := by
    cases dflt with
    | none => simp only [Option.getD_none, recv_word]; unfold toU32 toInt32; norm_num
    | some d => rfl
  rw [hrun]
  constructor
  · intro h0
    rw [if_pos h0]
  · intro hpos
    rw [if_neg (by omega)]
    simp only [recv_loop_bytes, recv_loop_calls, hword, List.nil_append, List.length_map,
      recv_words_length]
    exact ⟨trivial, Int.toNat_of_nonneg (by omega), trivial⟩

/-- Witness of C14 on the platform `budget`, which echoes the outgoing word
plus one: `spi.recv( 1, 0 )` returns nothing, and `spi.recv( 1, 3 )` sends
0xFFFFFFFF three times and returns three bytes, the low 8 bits of 2^32. -/
theorem recv_result_witness :
    spi_recv budget (recv_args 1 0 none) (State.init 0) = (Outcome.ret [], State.init 0) ∧
    (spi_recv budget (recv_args 1 3 none) (State.init 0)).1
      = Outcome.ret [LuaVal.string [0, 0, 0]] ∧
    (spi_recv budget (recv_args 1 3 none) (State.init 0)).2.calls
      = [Call.send_recv 1 0 4294967295, Call.send_recv 1 0 4294967295,
          Call.send_recv 1 0 4294967295] := by
  have h0 := (recv_result budget (State.init 0) 1 0 none (by decide)).1 rfl
  have h3 := (recv_result budget (State.init 0) 1 3 none (by decide)).2 (by decide)
  refine ⟨h0, ?_, ?_⟩
  · rw [h3.1]; decide
  · rw [h3.2.2]; decide

/-! ## Checks made before any platform call -/

theorem platform_spi_exists_toU32 (id : Int) :
    platform_spi_exists (toU32 id) = platform_spi_exists id := by
  unfold platform_spi_exists toU32
  congr 1
  apply propext
  constructor <;> intro h <;> omega

/-- C15: InvalidPort takes precedence.  For each of the seven module
functions, a call whose port id is not a known port and whose other leading
arguments are integers raises "spi %d does not exist", whatever those
integers are (in or out of range) and whatever follows them (for
`spi.set_mosi`, `spi.send` and `spi.send_recv` also when no value follows, the
case of their arity errors); the state is unchanged: no platform call is
issued and `spi_databits` is as before. -/
theorem invalid_port_first {H : Type} (P : Platform H) (s : State H) (id : Int)
    (hno : platform_spi_exists id = false) :
    (∀ (mode cpol cpha databits clock_div : Int) (fd : Option Int),
      spi_setup P (setup_args id mode cpol cpha databits clock_div fd) s
        = (Outcome.raise LuaError.does_not_exist, s)) ∧
    (∀ (items : List LuaVal),
      spi_send P (LuaVal.number id :: items) s = (Outcome.raise LuaError.does_not_exist, s)) ∧
    (∀ (items : List LuaVal),
      spi_send_recv P (LuaVal.number id :: items) s
        = (Outcome.raise LuaError.does_not_exist, s)) ∧
    (∀ (size : Int) (dflt : Option Int),
      spi_recv P (recv_args id size dflt) s = (Outcome.raise LuaError.does_not_exist, s)) ∧
    (∀ (offset bitlen : Int) (rest : List LuaVal),
      spi_set_mosi P (LuaVal.number id :: LuaVal.number offset :: LuaVal.number bitlen :: rest) s
        = (Outcome.raise LuaError.does_not_exist, s)) ∧
    (∀ (offset bitlen num : Int),
      spi_get_miso P [LuaVal.number id, LuaVal.number offset, LuaVal.number bitlen,
          LuaVal.number num] s
        = (Outcome.raise LuaError.does_not_exist, s)) ∧
    (∀ (cb cd ab ad mb db sb : Int),
      spi_transaction P (transaction_args id cb cd ab ad mb db sb) s
        = (Outcome.raise LuaError.does_not_exist, s)) := by
  have hno2 : platform_spi_exists (toU32 id) = false := by
    rw [platform_spi_exists_toU32]; exact hno
  refine ⟨?_, ?_, ?_, ?_, ?_, ?_, ?_⟩
  · intro mode cpol cpha databits clock_div fd
    cases fd <;>
      simp [spi_setup, setup_args, luaL_checkinteger, luaL_optinteger, hno]
  · intro items
    simp [spi_send, spi_generic_send_recv, luaL_checkinteger, hno2]
  · intro items
    simp [spi_send_recv, spi_generic_send_recv, luaL_checkinteger, hno2]
  · intro size dflt
    cases dflt <;>
      simp [spi_recv, recv_args, luaL_checkinteger, luaL_optinteger, hno]
  · intro offset bitlen rest
    simp [spi_set_mosi, luaL_checkinteger, hno]
  · intro offset bitlen num
    simp [spi_get_miso, luaL_checkinteger, hno]
  · intro cb cd ab ad mb db sb
    simp [spi_transaction, transaction_args, luaL_checkinteger, hno]

/-- Witness of C15 for the port id 2: an out-of-range `spi.setup`, a
`spi.send` without data, a `spi.set_mosi` without values and an out-of-range
`spi.transaction` all raise "does not exist" and leave the trace empty. -/
theorem invalid_port_first_witness :
    (spi_setup loopback (setup_args 2 7 7 7 99 0 (some 5)) (State.init ())).1
      = Outcome.raise LuaError.does_not_exist ∧
    (spi_send loopback [LuaVal.number 2] (State.init ())).1
      = Outcome.raise LuaError.does_not_exist ∧
    (spi_set_mosi loopback [LuaVal.number 2, LuaVal.number 600, LuaVal.number 0]
        (State.init ())).1 = Outcome.raise LuaError.does_not_exist ∧
    (spi_transaction loopback (transaction_args 2 17 0 33 0 513 257 512) (State.init ())).2.calls
      = [] := by
  have h := invalid_port_first loopback (State.init ()) 2 (by decide)
  refine ⟨?_, ?_, ?_, ?_⟩
  · rw [h.1]
  · rw [h.2.1]
  · rw [h.2.2.2.2.1]
  · rw [h.2.2.2.2.2.2]; rfl

/-- C16 as stated fails for a command word wider than 16 bits:
`spi.transaction( 0, 16, 65537, 32, -1, 0, 0, 0 )` on the loopback platform
passes validation, and the runner receives the command data 1 and the address
data 4294967295, not 65537 and -1. -/
theorem transaction_data_truncated :
    (spi_transaction loopback (transaction_args 0 16 65537 32 (-1) 0 0 0) (State.init ())).1
      = Outcome.ret [] ∧
    (spi_transaction loopback (transaction_args 0 16 65537 32 (-1) 0 0 0)
        (State.init ())).2.calls
      = [Call.transaction 0 16 1 32 4294967295 0 0 0] ∧
    (spi_transaction loopback (transaction_args 0 16 65537 32 (-1) 0 0 0)
        (State.init ())).2.calls
      ≠ [Call.transaction 0 16 65537 32 (-1) 0 0 0] := by
  decide

/-- C16, amended: run_transaction passes the segment values through.  For
every call of `spi_transaction` that passes validation, the single call of the
platform's runner receives the caller's five bit lengths unchanged, the
command data reduced to 16 bits (cmd_data mod 2^16) and the address data as
an unsigned 32-bit word (addr_data mod 2^32); the command data is unchanged
when it is in 0..65535 and the address data when it is in 0..2^32-1. -/
theorem transaction_passes_through {H : Type} (P : Platform H) (s : State H)
    (id cb cd ab ad mb db sb : Int) (hid : platform_spi_exists id = true)
    (hcb : 0 ≤ cb ∧ cb ≤ 16) (hab : 0 ≤ ab ∧ ab ≤ 32) (hmb : 0 ≤ mb ∧ mb ≤ 512)
    (hdb : 0 ≤ db ∧ db ≤ 256) (hsb : 0 ≤ sb ∧ sb ≤ 511) :
    (spi_transaction P (transaction_args id cb cd ab ad mb db sb) s).2.calls
      = s.calls ++ [Call.transaction id cb (cd % 65536) ab (ad % 4294967296) mb db sb] ∧
    (0 ≤ cd ∧ cd ≤ 65535 → cd % 65536 = cd) ∧
    (0 ≤ ad ∧ ad ≤ 4294967295 → ad % 4294967296 = ad) := by
  refine ⟨?_, fun h => by omega, fun h => by omega⟩
  rw [spi_transaction_eq P s id cb cd ab ad mb db sb hid]
  rw [if_neg (by omega), if_neg (by omega), if_neg (by omega), if_neg (by omega),
    if_neg (by omega)]
  split_ifs <;> rfl

/-- Witness of C16, amended: segments at their maxima with 16-bit command data
and 32-bit address data reach the runner unchanged. -/
theorem transaction_passes_through_witness :
    (spi_transaction loopback (transaction_args 1 16 43981 32 305419896 512 256 511)
        (State.init ())).2.calls
      = [Call.transaction 1 16 43981 32 305419896 512 256 511] := by
  have h := transaction_passes_through loopback (State.init ()) 1 16 43981 32 305419896 512 256
    511 (by decide) (by decide) (by decide) (by decide) (by decide) (by decide)
  rw [h.1]
  decide

/-- C17: run_transaction names an offending segment.  On a known port, when a
bit length is out of range `spi_transaction` raises the error of the first
segment, in the order cmd, addr, mosi, dummy, miso, whose bit length is
outside its own range (0..16, 0..32, 0..512, 0..256, 0..511); and it raises
one of these five errors only in that case. -/
theorem transaction_names_first_offender {H : Type} (P : Platform H) (s : State H)
    (id cb cd ab ad mb db sb : Int) (hid : platform_spi_exists id = true) :
    ((spi_transaction P (transaction_args id cb cd ab ad mb db sb) s).1
        = Outcome.raise LuaError.cmd_bitlen_out_of_range ↔ ¬ (0 ≤ cb ∧ cb ≤ 16)) ∧
    ((spi_transaction P (transaction_args id cb cd ab ad mb db sb) s).1
        = Outcome.raise LuaError.addr_bitlen_out_of_range ↔
      (0 ≤ cb ∧ cb ≤ 16) ∧ ¬ (0 ≤ ab ∧ ab ≤ 32)) ∧
    ((spi_transaction P (transaction_args id cb cd ab ad mb db sb) s).1
        = Outcome.raise LuaError.mosi_bitlen_out_of_range ↔
      (0 ≤ cb ∧ cb ≤ 16) ∧ (0 ≤ ab ∧ ab ≤ 32) ∧ ¬ (0 ≤ mb ∧ mb ≤ 512)) ∧
    ((spi_transaction P (transaction_args id cb cd ab ad mb db sb) s).1
        = Outcome.raise LuaError.dummy_bitlen_out_of_range ↔
      (0 ≤ cb ∧ cb ≤ 16) ∧ (0 ≤ ab ∧ ab ≤ 32) ∧ (0 ≤ mb ∧ mb ≤ 512) ∧ ¬ (0 ≤ db ∧ db ≤ 256)) ∧
    ((spi_transaction P (transaction_args id cb cd ab ad mb db sb) s).1
        = Outcome.raise LuaError.miso_bitlen_out_of_range ↔
      (0 ≤ cb ∧ cb ≤ 16) ∧ (0 ≤ ab ∧ ab ≤ 32) ∧ (0 ≤ mb ∧ mb ≤ 512) ∧ (0 ≤ db ∧ db ≤ 256) ∧
        ¬ (0 ≤ sb ∧ sb ≤ 511)) := by
  rw [spi_transaction_eq P s id cb cd ab ad mb db sb hid]
  split_ifs with h1 h2 h3 h4 h5 h6
  all_goals
    simp only [Outcome.raise.injEq, reduceCtorEq, true_iff, false_iff, not_and, not_not]
    refine ⟨?_, ?_, ?_, ?_, ?_⟩ <;> omega

/-- Witness of C17: with mosi_bitlen = 513 and the other four bit lengths in
range the error names the mosi segment. -/
theorem transaction_names_first_offender_witness :
    (spi_transaction loopback (transaction_args 1 8 0 24 0 513 0 0) (State.init ())).1
      = Outcome.raise LuaError.mosi_bitlen_out_of_range :=
  (transaction_names_first_offender loopback (State.init ()) 1 8 0 24 0 513 0 0
    (by decide)).2.2.1.mpr (by decide)

/-- C18: set_bits up-front rejection.  On a known port, `spi_set_mosi` with an
offset outside 0..511 raises "offset out of range", with a valid offset and a
bit length outside 1..32 it raises "bitlen out of range", whatever values
follow, and with a valid offset and bit length and no value it raises "too few
args"; in each case the state is unchanged, so no buffer write is issued. -/
theorem set_mosi_rejects_up_front {H : Type} (P : Platform H) (s : State H)
    (id offset bitlen : Int) (rest : List LuaVal) (hid : platform_spi_exists id = true) :
    (¬ (0 ≤ offset ∧ offset ≤ 511) →
      spi_set_mosi P
          (LuaVal.number id :: LuaVal.number offset :: LuaVal.number bitlen :: rest) s
        = (Outcome.raise LuaError.offset_out_of_range, s)) ∧
    ((0 ≤ offset ∧ offset ≤ 511) → ¬ (1 ≤ bitlen ∧ bitlen ≤ 32) →
      spi_set_mosi P
          (LuaVal.number id :: LuaVal.number offset :: LuaVal.number bitlen :: rest) s
        = (Outcome.raise LuaError.bitlen_out_of_range, s)) ∧
    ((0 ≤ offset ∧ offset ≤ 511) → (1 ≤ bitlen ∧ bitlen ≤ 32) →
      spi_set_mosi P [LuaVal.number id, LuaVal.number offset, LuaVal.number bitlen] s
        = (Outcome.raise LuaError.too_few_args, s)) := by
  refine ⟨?_, ?_, ?_⟩
  · intro ho
    have h1 : offset < 0 ∨ offset > 511 := by omega
    simp [spi_set_mosi, luaL_checkinteger, hid, h1]
  · intro ho hb
    have h1 : ¬ (offset < 0 ∨ offset > 511) := by omega
    have h2 : bitlen < 1 ∨ bitlen > 32 := by omega
    simp [spi_set_mosi, luaL_checkinteger, hid, h1, h2]
  · intro ho hb
    have h1 : ¬ (offset < 0 ∨ offset > 511) := by omega
    have h2 : ¬ (bitlen < 1 ∨ bitlen > 32) := by omega
    simp [spi_set_mosi, luaL_checkinteger, hid, h1, h2]

/-- Witness of C18 on the loopback platform: offset 512, bit length 33 and an
empty value list are each refused without a platform call. -/
theorem set_mosi_rejects_up_front_witness :
    spi_set_mosi loopback [LuaVal.number 0, LuaVal.number 512, LuaVal.number 8, LuaVal.number 1]
        (State.init ())
      = (Outcome.raise LuaError.offset_out_of_range, State.init ()) ∧
    spi_set_mosi loopback [LuaVal.number 0, LuaVal.number 0, LuaVal.number 33, LuaVal.number 1]
        (State.init ())
      = (Outcome.raise LuaError.bitlen_out_of_range, State.init ()) ∧
    spi_set_mosi loopback [LuaVal.number 0, LuaVal.number 0, LuaVal.number 8] (State.init ())
      = (Outcome.raise LuaError.too_few_args, State.init ()) :=
  ⟨(set_mosi_rejects_up_front loopback (State.init ()) 0 512 8 [LuaVal.number 1]
      (by decide)).1 (by decide),
    (set_mosi_rejects_up_front loopback (State.init ()) 0 0 33 [LuaVal.number 1]
      (by decide)).2.1 (by decide) (by decide),
    (set_mosi_rejects_up_front loopback (State.init ()) 0 0 8 []
      (by decide)).2.2 (by decide) (by decide)⟩

/-! ## `spi_generic_send_recv`: table arguments when receiving -/

/-- The store `lua_rawseti( L, -1, n )` made right after a `lua_pushinteger`
is outside the contract of the C API: index -1 designates the integer just
pushed, which is not a table. -/
theorem lua_rawseti_on_pushed_integer (stack : List LuaVal) (x n : Int) :
    lua_rawseti (stack ++ [lua_pushinteger x]) (-1) n = none := by
  have hlen : (stack ++ [lua_pushinteger x]).length = stack.length + 1 := by simp
  have hidx : index2adr (stack ++ [lua_pushinteger x]) (-1) = some stack.length := by
    unfold index2adr
    rw [hlen]
    have h1 : ¬ ((0 : Int) < -1 ∧ (-1 : Int) ≤ ((stack.length + 1 : Nat) : Int)) := by omega
    have h2 : (-1 : Int) < 0 ∧ -(-1 : Int) ≤ ((stack.length + 1 : Nat) : Int) := by
      constructor
      · norm_num
      · push_cast; omega
    rw [if_neg h1, if_pos h2]
    congr 1
    push_cast
    omega
  have hget : (stack ++ [lua_pushinteger x]).get? stack.length = some (lua_pushinteger x) := by
    simp
  have hlast : (stack ++ [lua_pushinteger x]).getLast? = some (lua_pushinteger x) := by simp
  unfold lua_rawseti
  rw [hidx, hlast]
  simp only [hget]
  rfl

/-- The loop over a non-empty table when receiving, with room on the stack
for the element `lua_rawgeti` pushes: after the first `platform_spi_send_recv`
the call has no defined continuation. -/
theorem table_loop_recv_undefined {H : Type} (P : Platform H) (id recv tos : Int) (n : Int)
    (rest : List (Option Int)) (i : Int) (stack : List LuaVal) (s : State H)
    (hrecv : recv > 0) (hroom : (stack.length : Int) < tos + LUA_MINSTACK) :
    table_loop P id recv tos (some n :: rest) i stack s
      = (Except.error Outcome.undefined,
          { s with hw := (P.platform_spi_send_recv s.hw id (s.spi_databits id) (toU32 n)).2,
                   calls := s.calls ++ [Call.send_recv id (s.spi_databits id) (toU32 n)] }) := by
  simp only [table_loop, lua_push, hroom, if_true, Option.map_some', luaL_checkinteger, hrecv,
    lua_rawseti_on_pushed_integer]

/-- A non-empty table item when receiving, with room on the stack for the
result table and one more value: the call stops without a defined outcome
after the first `platform_spi_send_recv`. -/
theorem items_loop_recv_table {H : Type} (P : Platform H) (id tos : Int) (n : Int)
    (rest : List (Option Int)) (items : List LuaVal) (argn : Int) (stack : List LuaVal)
    (pushed wrote : Int) (s : State H)
    (hroom : (stack.length : Int) + 1 < tos + LUA_MINSTACK) :
    items_loop P id 1 tos (LuaVal.table (some n :: rest) :: items) argn stack pushed wrote s
      = (Outcome.undefined,
          { s with hw := (P.platform_spi_send_recv s.hw id (s.spi_databits id) (toU32 n)).2,
                   calls := s.calls ++ [Call.send_recv id (s.spi_databits id) (toU32 n)] }) := by
  have h1 : (stack.length : Int) < tos + LUA_MINSTACK := by omega
  have h2 : (((stack ++ [LuaVal.table []]).length : Nat) : Int) < tos + LUA_MINSTACK := by
    rw [List.length_append]; push_cast; simpa using hroom
  have hd : decide ((1 : Int) > 0 ∧ (((some n :: rest).length : Nat) : Int) > 0) = true := by
    rw [decide_eq_true_eq]
    refine ⟨by decide, ?_⟩
    rw [List.length_cons]; push_cast; omega
  simp only [items_loop, hd, if_true, lua_push, h1,
    table_loop_recv_undefined P id 1 tos n rest 0 _ s (by decide) h2]

/-- A number item when receiving, with room on the stack for the echoed
word: the word is exchanged and pushed, and the loop goes on. -/
theorem items_loop_recv_number {H : Type} (P : Platform H) (id tos : Int) (n : Int)
    (items : List LuaVal) (argn : Int) (stack : List LuaVal) (pushed wrote : Int) (s : State H)
    (hroom : (stack.length : Int) < tos + LUA_MINSTACK) :
    items_loop P id 1 tos (LuaVal.number n :: items) argn stack pushed wrote s
      = items_loop P id 1 tos items (argn + 1)
          (stack ++ [lua_pushinteger (P.platform_spi_send_recv s.hw id (s.spi_databits id)
            (toU32 n)).1])
          (toInt32 (pushed + 1)) (toU32 (wrote + 1))
          { s with hw := (P.platform_spi_send_recv s.hw id (s.spi_databits id) (toU32 n)).2,
                   calls := s.calls ++ [Call.send_recv id (s.spi_databits id) (toU32 n)] } := by
  have hone : (1 : Int) > 0 := by decide
  simp only [items_loop, hone, if_true, lua_push, hroom]

/-- C13 at any input `spi.send_recv( 0, t )` with a table `t` of integers of
length n >= 1: after the word of the first element has been exchanged, the
echoed value is pushed and `lua_rawseti( L, -1, 1 )` is applied to it, not to
the result table below it; the call has no defined outcome, no result sequence
holding the echoed words is returned, and only one unit has been sent. -/
theorem send_recv_table_store_misses_table {H : Type} (P : Platform H) (s : State H)
    (n : Int) (rest : List (Option Int)) :
    (spi_send_recv P [LuaVal.number 0, LuaVal.table (some n :: rest)] s).1 = Outcome.undefined ∧
    (spi_send_recv P [LuaVal.number 0, LuaVal.table (some n :: rest)] s).2.calls
      = s.calls ++ [Call.send_recv 0 (s.spi_databits 0) (toU32 n)] ∧
    lua_rawseti
        ([LuaVal.number 0, LuaVal.table (some n :: rest), lua_pushinteger 0, LuaVal.table [],
          lua_pushinteger (P.platform_spi_send_recv s.hw 0 (s.spi_databits 0) (toU32 n)).1])
        (-1) 1 = none := by
  have hex : platform_spi_exists (toU32 0) = true := by decide
  have hz : toU32 0 = 0 := by decide
  have hrun : spi_send_recv P [LuaVal.number 0, LuaVal.table (some n :: rest)] s
      = (Outcome.undefined,
          { s with hw := (P.platform_spi_send_recv s.hw 0 (s.spi_databits 0) (toU32 n)).2,
                   calls := s.calls ++ [Call.send_recv 0 (s.spi_databits 0) (toU32 n)] }) := by
    simp only [spi_send_recv, spi_generic_send_recv, luaL_checkinteger, List.get?, hex,
      List.drop]
    rw [items_loop_recv_table]
    · simp [hz]
    · simp [LUA_MINSTACK]
  refine ⟨?_, ?_, ?_⟩
  · rw [hrun]
  · rw [hrun]
  · exact lua_rawseti_on_pushed_integer
      [LuaVal.number 0, LuaVal.table (some n :: rest), lua_pushinteger 0, LuaVal.table []] _ 1

/-- C10 at the input `( 0, {1, 2} )`: `spi.send` hands the platform the two
words 1 and 2, while `spi.send_recv` hands it the word 1 only: after the first
element the store `lua_rawseti( L, -1, 1 )` leaves the call without a defined
continuation, so the second element is never sent and the outgoing words of
the two functions differ. -/
theorem send_recv_table_stream_cut {H : Type} (P : Platform H) (s : State H) :
    (spi_send P [LuaVal.number 0, LuaVal.table [some 1, some 2]] s).2.calls
      = s.calls ++ [Call.send 0 (s.spi_databits 0) 1, Call.send 0 (s.spi_databits 0) 2] ∧
    (spi_send_recv P [LuaVal.number 0, LuaVal.table [some 1, some 2]] s).2.calls
      = s.calls ++ [Call.send_recv 0 (s.spi_databits 0) 1] := by
  have hex : platform_spi_exists (toU32 0) = true := by decide
  have hz : toU32 0 = 0 := by decide
  have h1 : toU32 1 = 1 := by decide
  have h2 : toU32 2 = 2 := by decide
  have hex0 : platform_spi_exists 0 = true := by decide
  constructor
  · simp [spi_send, spi_generic_send_recv, luaL_checkinteger, hex0, items_loop, table_loop,
      lua_push, LUA_MINSTACK, send_recv_finish_state, hz, h1, h2]
  · simp only [spi_send_recv, spi_generic_send_recv, luaL_checkinteger, List.get?, hex,
      List.drop]
    rw [items_loop_recv_table]
    · simp [hz, h1]
    · simp [LUA_MINSTACK]

/-- C11 at the input `( 0, 5, {1, 2} )`: `spi.send` returns the count 3 as its
only result, while `spi.send_recv` returns nothing at all: it stops with no
outcome defined at the store of the first echoed table element, after two of
the three units. -/
theorem send_recv_table_no_count {H : Type} (P : Platform H) (s : State H) :
    (spi_send P [LuaVal.number 0, LuaVal.number 5, LuaVal.table [some 1, some 2]] s).1
      = Outcome.ret [LuaVal.number 3] ∧
    (spi_send_recv P [LuaVal.number 0, LuaVal.number 5, LuaVal.table [some 1, some 2]] s).1
      = Outcome.undefined ∧
    (spi_send_recv P [LuaVal.number 0, LuaVal.number 5, LuaVal.table [some 1, some 2]]
        s).2.calls.length = s.calls.length + 2 := by
  have hex : platform_spi_exists (toU32 0) = true := by decide
  have hex0 : platform_spi_exists 0 = true := by decide
  have hz : toU32 0 = 0 := by decide
  have hw1 : toU32 1 = 1 := by decide
  have hw3 : toU32 3 = 3 := by decide
  have hp : lua_pushinteger 3 = LuaVal.number 3 := by decide
  refine ⟨?_, ?_, ?_⟩
  · simp [spi_send, spi_generic_send_recv, luaL_checkinteger, hex0, items_loop, table_loop,
      lua_push, LUA_MINSTACK, send_recv_finish, lua_replace, index2adr, hz, hw1, hw3, hp]
  · simp only [spi_send_recv, spi_generic_send_recv, luaL_checkinteger, List.get?, hex,
      List.drop]
    rw [items_loop_recv_number, items_loop_recv_table]
    · simp
    · simp [LUA_MINSTACK]
    · simp [LUA_MINSTACK]
  · simp only [spi_send_recv, spi_generic_send_recv, luaL_checkinteger, List.get?, hex,
      List.drop]
    rw [items_loop_recv_number, items_loop_recv_table]
    · simp
    · simp [LUA_MINSTACK]
    · simp [LUA_MINSTACK]

/-- C12 at the input `( 0, {7}, "AB" )`, two items of non-zero length:
`spi.send_recv` does not return 1 + 2 values; it stops without a defined
outcome at the store of the echoed table element and the text is never
streamed.  The three examples of the claim, which hold no non-empty table, do
come out as stated: a scalar gives the count 1 and the echoed word, an empty
table gives the count 0 alone, and "AB" gives the count 2 and a string of the
low 8 bits of the two echoed words. -/
theorem send_recv_table_no_results {H : Type} (P : Platform H) (s : State H) :
    (spi_send_recv P [LuaVal.number 0, LuaVal.table [some 7], LuaVal.string [65, 66]] s).1
      = Outcome.undefined ∧
    (spi_send_recv P [LuaVal.number 0, LuaVal.table [some 7], LuaVal.string [65, 66]] s).2.calls
      = s.calls ++ [Call.send_recv 0 (s.spi_databits 0) 7] ∧
    (spi_send_recv P [LuaVal.number 0, LuaVal.number 5] s).1
      = Outcome.ret [LuaVal.number 1,
          lua_pushinteger (P.platform_spi_send_recv s.hw 0 (s.spi_databits 0) 5).1] ∧
    (spi_send_recv P [LuaVal.number 0, LuaVal.table []] s).1 = Outcome.ret [LuaVal.number 0] ∧
    (spi_send_recv P [LuaVal.number 0, LuaVal.string [65, 66]] s).1
      = Outcome.ret [LuaVal.number 2,
          LuaVal.string
            [toU8 (P.platform_spi_send_recv s.hw 0 (s.spi_databits 0) 65).1,
              toU8 (P.platform_spi_send_recv
                (P.platform_spi_send_recv s.hw 0 (s.spi_databits 0) 65).2 0
                (s.spi_databits 0) 66).1]] := by
  have hex : platform_spi_exists (toU32 0) = true := by decide
  have hz : toU32 0 = 0 := by decide
  have h7 : toU32 7 = 7 := by decide
  have h5 : toU32 5 = 5 := by decide
  have hex0 : platform_spi_exists 0 = true := by decide
  have hw1 : toU32 1 = 1 := by decide
  have hw2 : toU32 2 = 2 := by decide
  have ht1 : toInt32 2 = 2 := by decide
  have h65 : toU32 (toU8 65) = 65 := by decide
  have h66 : toU32 (toU8 66) = 66 := by decide
  have hp0 : lua_pushinteger 0 = LuaVal.number 0 := by decide
  have hp1 : lua_pushinteger 1 = LuaVal.number 1 := by decide
  have hp2 : lua_pushinteger 2 = LuaVal.number 2 := by decide
  refine ⟨?_, ?_, ?_, ?_, ?_⟩
  · simp only [spi_send_recv, spi_generic_send_recv, luaL_checkinteger, List.get?, hex,
      List.drop]
    rw [items_loop_recv_table]
    · simp
    · simp [LUA_MINSTACK]
  · simp only [spi_send_recv, spi_generic_send_recv, luaL_checkinteger, List.get?, hex,
      List.drop]
    rw [items_loop_recv_table]
    · simp [hz, h7]
    · simp [LUA_MINSTACK]
  · simp [spi_send_recv, spi_generic_send_recv, luaL_checkinteger, hex0, items_loop,
      lua_push, LUA_MINSTACK, send_recv_finish, lua_replace, index2adr, hz, h5, hw1, ht1, hp1]
  · simp [spi_send_recv, spi_generic_send_recv, luaL_checkinteger, hex0, items_loop, table_loop,
      lua_push, LUA_MINSTACK, send_recv_finish, lua_replace, index2adr, hz, hp0]
  · simp [spi_send_recv, spi_generic_send_recv, luaL_checkinteger, hex0, items_loop, string_loop,
      lua_push, LUA_MINSTACK, send_recv_finish, lua_replace, index2adr, hz, hw2, ht1, h65, h66, hp2]

/-! ## `spi_send`: the whole item list is streamed -/

theorem send_hw_append {H : Type} (P : Platform H) (id w : Int) :
    ∀ (a b : List Int) (h : H), send_hw P id w (a ++ b) h = send_hw P id w b (send_hw P id w a h) := by
  intro a
  induction a with
  | nil => intro b h; rfl
  | cons d ds ih => intro b h; exact ih b _

theorem table_loop_send {H : Type} (P : Platform H) (id tos : Int) :
    ∀ (vals : List Int) (i : Int) (stack : List LuaVal) (s : State H),
      (stack.length : Int) < tos + LUA_MINSTACK →
      table_loop P id 0 tos (vals.map some) i stack s
        = (Except.ok (i + (vals.length : Int), stack),
            { s with hw := send_hw P id (s.spi_databits id) (vals.map toU32) s.hw,
                     calls := s.calls
                        ++ (vals.map toU32).map (Call.send id (s.spi_databits id)) }) := by
  intro vals
  induction vals with
  | nil => intro i stack s _; simp [table_loop, send_hw]
  | cons v vs ih =>
    intro i stack s hroom
    have h0 : ¬ ((0 : Int) > 0) := by decide
    have e : i + 1 + (vs.length : Int) = i + ((vs.length + 1 : Nat) : Int) := by
      push_cast; ring
    simp only [List.map_cons, table_loop, lua_push, hroom, if_true, Option.map_some',
      luaL_checkinteger, h0, if_false, ih _ stack _ hroom, send_hw, List.length_cons,
      List.append_assoc, List.singleton_append, e]

theorem string_loop_send {H : Type} (P : Platform H) (id : Int) :
    ∀ (bytes : List Int) (i : Int) (b : List Int) (s : State H),
      string_loop P id 0 bytes i b s
        = ((i + (bytes.length : Int), b),
            { s with hw := send_hw P id (s.spi_databits id)
                        (bytes.map (fun c => toU32 (toU8 c))) s.hw,
                     calls := s.calls ++ (bytes.map (fun c => toU32 (toU8 c))).map
                        (Call.send id (s.spi_databits id)) }) := by
  intro bytes
  induction bytes with
  | nil => intro i b s; simp [string_loop, send_hw]
  | cons c cs ih =>
    intro i b s
    have h0 : ¬ ((0 : Int) > 0) := by decide
    have e : i + 1 + (cs.length : Int) = i + ((cs.length + 1 : Nat) : Int) := by
      push_cast; ring
    simp only [List.map_cons, string_loop, h0, if_false, ih, send_hw, List.length_cons,
      List.append_assoc, List.singleton_append, e]

theorem toU32_add_toU32 (a b : Int) : toU32 (toU32 a + b) = toU32 (a + b) := by
  unfold toU32; omega

/-- The loop of `spi_generic_send_recv` when not receiving, with room on the
stack for the element `lua_rawgeti` pushes: every item is streamed in full,
the stack and `pushed` are not touched, and `wrote` grows by the number of
units. -/
theorem items_loop_send {H : Type} (P : Platform H) (id tos : Int) :
    ∀ (items : List Item) (argn : Int) (stack : List LuaVal) (pushed wrote : Int)
      (s : State H), (stack.length : Int) < tos + LUA_MINSTACK →
      items_loop P id 0 tos (items.map Item.toLua) argn stack pushed (toU32 wrote) s
        = send_recv_finish tos stack pushed
            (toU32 (wrote + ((stream_words items).length : Int)))
            { s with hw := send_hw P id (s.spi_databits id) (stream_words items) s.hw,
                     calls := s.calls
                        ++ (stream_words items).map (Call.send id (s.spi_databits id)) } := by
  intro items
  induction items with
  | nil =>
    intro argn stack pushed wrote s _
    simp [items_loop, stream_words, send_hw]
  | cons it its ih =>
    intro argn stack pushed wrote s hroom
    have h0 : ¬ ((0 : Int) > 0) := by decide
    have ih := fun argn pushed wrote s => ih argn stack pushed wrote s hroom
    have htable := fun vals i s => table_loop_send P id tos vals i stack s hroom
    cases it with
    | scalar n =>
      simp only [List.map_cons, Item.toLua, items_loop, h0, if_false, toU32_add_toU32, ih,
        stream_words, Item.words, send_hw, List.singleton_append, List.map_cons,
        List.length_cons, List.append_assoc]
      congr 2
      push_cast
      ring
    | sequence vals =>
      have e : wrote + (vals.length : Int) + ((stream_words its).length : Int)
          = wrote + ((vals.length + (stream_words its).length : Nat) : Int) := by
        push_cast; ring
      simp only [List.map_cons, Item.toLua, items_loop, h0, false_and, decide_False,
        Bool.false_eq_true, if_false, htable, toU32_add_toU32, ih, stream_words,
        Item.words, send_hw_append, List.map_append, List.length_append, List.length_map,
        List.append_assoc, zero_add, lt_self_iff_false, e]
    | text bytes =>
      have e : wrote + (bytes.length : Int) + ((stream_words its).length : Int)
          = wrote + ((bytes.length + (stream_words its).length : Nat) : Int) := by
        push_cast; ring
      simp only [List.map_cons, Item.toLua, items_loop, h0, false_and, decide_False,
        Bool.false_eq_true, if_false, string_loop_send, toU32_add_toU32, ih, stream_words,
        Item.words, send_hw_append, List.map_append, List.length_append, List.length_map,
        List.append_assoc, zero_add, lt_self_iff_false, e]

/-- The end of `spi_generic_send_recv` when nothing was pushed after the slot
of `wrote`: the call returns `wrote` alone. -/
theorem send_recv_finish_wrote {H : Type} (args : List LuaVal) (wrote : Int) (s : State H) :
    send_recv_finish (args.length : Int) (args ++ [lua_pushinteger 0]) 1 wrote s
      = (Outcome.ret [lua_pushinteger wrote], s) := by
  have hidx : index2adr (args ++ [lua_pushinteger 0] ++ [lua_pushinteger wrote])
      ((args.length : Int) + 1) = some args.length := by
    unfold index2adr
    have h1 : (0 : Int) < (args.length : Int) + 1 ∧ (args.length : Int) + 1
        ≤ ((args ++ [lua_pushinteger 0] ++ [lua_pushinteger wrote]).length : Int) := by
      simp only [List.length_append, List.length_singleton]
      push_cast
      omega
    rw [if_pos h1]
    congr 1
    omega
  have hlast : (args ++ [lua_pushinteger 0] ++ [lua_pushinteger wrote]).getLast?
      = some (lua_pushinteger wrote) := by simp
  have hset : ((args ++ [lua_pushinteger 0] ++ [lua_pushinteger wrote]).set args.length
      (lua_pushinteger wrote)).dropLast = args ++ [lua_pushinteger wrote] := by
    rw [List.append_assoc, List.set_append_right _ _ (le_refl _)]
    simp [List.dropLast_append_of_ne_nil]
  have hroom : (((args ++ [lua_pushinteger 0]).length : Nat) : Int)
      < (args.length : Int) + LUA_MINSTACK := by
    simp [LUA_MINSTACK]
  unfold send_recv_finish lua_replace
  simp only [lua_push, hroom, if_true]
  rw [hidx, hlast]
  simp only [hset, List.length_append, List.length_singleton]
  have hone : (1 : Int).toNat = 1 := rfl
  rw [hone, Nat.add_sub_cancel, List.drop_left]

/-- Write streams the whole item list.  For a known port and every non-empty
item list, `spi_send` hands the platform exactly the outgoing words of the
items, in order, each with the width stored for the port, and returns the
number of units as its only result. -/
theorem spi_send_streams_all {H : Type} (P : Platform H) (s : State H) (id : Int)
    (items : List Item) (hid : id = 0 ∨ id = 1) (hne : items ≠ []) :
    spi_send P (LuaVal.number id :: items.map Item.toLua) s
      = (Outcome.ret [lua_pushinteger (toU32 ((stream_words items).length : Int))],
          { s with hw := send_hw P id (s.spi_databits id) (stream_words items) s.hw,
                   calls := s.calls
                      ++ (stream_words items).map (Call.send id (s.spi_databits id)) }) := by
  have hu : toU32 id = id := by
    unfold toU32; rcases hid with h | h <;> rw [h] <;> decide
  have hex : platform_spi_exists id = true := by
    rcases hid with h | h <;> rw [h] <;> decide
  obtain ⟨it, its, rfl⟩ := List.exists_cons_of_ne_nil hne
  have htos : ¬ (((LuaVal.number id :: (it :: its).map Item.toLua).length : Int) < 2) := by
    simp only [List.length_cons, List.map_cons, List.length_map]
    push_cast
    omega
  have hloop := items_loop_send P id
    ((LuaVal.number id :: (it :: its).map Item.toLua).length : Int) (it :: its) 2
    ((LuaVal.number id :: (it :: its).map Item.toLua) ++ [lua_pushinteger 0]) 1 0 s
    (by simp [LUA_MINSTACK])
  rw [show toU32 0 = 0 from by decide, send_recv_finish_wrote, zero_add] at hloop
  unfold spi_send spi_generic_send_recv
  simp only [luaL_checkinteger, List.get?, hu, hex, Bool.not_true, Bool.false_eq_true, if_false,
    htos, List.drop]
  exact hloop

/-! ## `spi_send_recv` on items without a non-empty sequence -/

theorem string_loop_recv {H : Type} (P : Platform H) (id : Int) :
    ∀ (bytes : List Int) (i : Int) (b : List Int) (s : State H),
      string_loop P id 1 bytes i b s
        = ((i + (bytes.length : Int), b ++ (text_echo P id (s.spi_databits id) bytes s.hw).1),
            { s with hw := (text_echo P id (s.spi_databits id) bytes s.hw).2,
                     calls := s.calls ++ (bytes.map (fun c => toU32 (toU8 c))).map
                        (Call.send_recv id (s.spi_databits id)) }) := by
  intro bytes
  induction bytes with
  | nil => intro i b s; simp [string_loop, text_echo]
  | cons c cs ih =>
    intro i b s
    have h1 : (1 : Int) > 0 := by decide
    have e : i + 1 + (cs.length : Int) = i + ((cs.length + 1 : Nat) : Int) := by
      push_cast; ring
    simp only [List.map_cons, string_loop, h1, if_true, ih, text_echo, List.length_cons,
      List.append_assoc, List.singleton_append, e]

theorem toInt32_add_toInt32 (a b : Int) : toInt32 (toInt32 a + b) = toInt32 (a + b) := by
  unfold toInt32; omega

/-- The loop of `spi_generic_send_recv` when receiving, over items without a
non-empty sequence and with room on the stack for their result slots: every
item is streamed in full and its result slot, if it has one, is pushed. -/
theorem items_loop_recv {H : Type} (P : Platform H) (id tos : Int) :
    ∀ (items : List Item), (∀ it ∈ items, it.plain = true) →
      ∀ (argn : Int) (stack : List LuaVal) (pushed wrote : Int) (s : State H),
      (stack.length : Int) + ((echo_run P id (s.spi_databits id) items s.hw).1.length : Int)
        ≤ tos + LUA_MINSTACK →
      items_loop P id 1 tos (items.map Item.toLua) argn stack (toInt32 pushed) (toU32 wrote) s
        = send_recv_finish tos (stack ++ (echo_run P id (s.spi_databits id) items s.hw).1)
            (toInt32 (pushed + ((echo_run P id (s.spi_databits id) items s.hw).1.length : Int)))
            (toU32 (wrote + ((stream_words items).length : Int)))
            { s with hw := (echo_run P id (s.spi_databits id) items s.hw).2,
                     calls := s.calls
                        ++ (stream_words items).map (Call.send_recv id (s.spi_databits id)) } := by
  intro items
  induction items with
  | nil =>
    intro _ argn stack pushed wrote s _
    simp [items_loop, stream_words, echo_run]
  | cons it its ih =>
    intro hplain argn stack pushed wrote s hroom
    have hrest : ∀ x ∈ its, x.plain = true := fun x hx => hplain x (List.mem_cons_of_mem _ hx)
    have hit : it.plain = true := hplain it (List.mem_cons_self _ _)
    have h1 : (1 : Int) > 0 := by decide
    cases it with
    | scalar n =>
      have e1 : pushed + 1 + ((echo_run P id (s.spi_databits id) its
            (P.platform_spi_send_recv s.hw id (s.spi_databits id) (toU32 n)).2).1.length : Int)
          = pushed + (((echo_run P id (s.spi_databits id) its
            (P.platform_spi_send_recv s.hw id (s.spi_databits id) (toU32 n)).2).1.length + 1 : Nat)
              : Int) := by
        push_cast; ring
      have e2 : wrote + 1 + ((stream_words its).length : Int)
          = wrote + (((stream_words its).length + 1 : Nat) : Int) := by
        push_cast; ring
      simp only [echo_run, List.length_cons] at hroom
      push_cast at hroom
      have hr : (stack.length : Int) < tos + LUA_MINSTACK := by omega
      have hih := ih hrest (argn + 1)
        (stack ++ [lua_pushinteger
          (P.platform_spi_send_recv s.hw id (s.spi_databits id) (toU32 n)).1])
        (pushed + 1) (wrote + 1)
        { s with hw := (P.platform_spi_send_recv s.hw id (s.spi_databits id) (toU32 n)).2,
                 calls := s.calls ++ [Call.send_recv id (s.spi_databits id) (toU32 n)] }
        (by rw [List.length_append, List.length_singleton]; push_cast; omega)
      simp only [List.map_cons, Item.toLua, items_loop, h1, if_true, lua_push, hr,
        toU32_add_toU32, toInt32_add_toInt32, hih, stream_words, Item.words, echo_run,
        List.singleton_append, List.length_cons, List.append_assoc, e1, e2]
    | sequence vals =>
      cases vals with
      | cons v vs => simp [Item.plain] at hit
      | nil =>
        simp only [echo_run] at hroom
        have hih := fun argn pushed wrote => ih hrest argn stack pushed wrote s hroom
        simp only [List.map_cons, Item.toLua, List.map_nil, items_loop, List.length_nil,
          Nat.cast_zero, gt_iff_lt, lt_self_iff_false, and_false, decide_False,
          Bool.false_eq_true, if_false, table_loop, add_zero, toU32_add_toU32, hih,
          stream_words, Item.words, echo_run, List.nil_append]
    | text bs =>
      by_cases hbs : bs = []
      · subst hbs
        simp only [echo_run, text_echo, if_true] at hroom
        have hih := fun argn pushed wrote => ih hrest argn stack pushed wrote s hroom
        simp only [List.map_cons, Item.toLua, items_loop, List.length_nil, Nat.cast_zero,
          gt_iff_lt, lt_self_iff_false, and_false, decide_False, Bool.false_eq_true, if_false,
          string_loop, add_zero, toU32_add_toU32, hih, stream_words, Item.words, echo_run,
          List.map_nil, List.nil_append, text_echo, if_true]
      · have hlen : ((bs.length : Nat) : Int) > 0 := by
          have := List.length_pos.mpr hbs
          omega
        have e1 : pushed + 1 + ((echo_run P id (s.spi_databits id) its
              (text_echo P id (s.spi_databits id) bs s.hw).2).1.length : Int)
            = pushed + (((echo_run P id (s.spi_databits id) its
              (text_echo P id (s.spi_databits id) bs s.hw).2).1.length + 1 : Nat) : Int) := by
          push_cast; ring
        have e2 : wrote + ((bs.length : Nat) : Int) + ((stream_words its).length : Int)
            = wrote + ((bs.length + (stream_words its).length : Nat) : Int) := by
          push_cast; ring
        simp only [echo_run, hbs, if_false, List.length_cons] at hroom
        push_cast at hroom
        have hr : (stack.length : Int) < tos + LUA_MINSTACK := by omega
        have hih := ih hrest (argn + 1)
          (stack ++ [LuaVal.string (text_echo P id (s.spi_databits id) bs s.hw).1])
          (pushed + 1) (wrote + (bs.length : Int))
          { s with hw := (text_echo P id (s.spi_databits id) bs s.hw).2,
                   calls := s.calls ++ (bs.map (fun c => toU32 (toU8 c))).map
                      (Call.send_recv id (s.spi_databits id)) }
          (by rw [List.length_append, List.length_singleton]; push_cast; omega)
        simp only [List.map_cons, Item.toLua, items_loop, string_loop_recv, h1, hlen, and_self,
          decide_True, if_true, lt_self_iff_false, if_false, zero_add, toU32_add_toU32,
          toInt32_add_toInt32, lua_push, hr, hih, stream_words, Item.words, echo_run, hbs,
          List.nil_append, List.map_append, List.length_append, List.length_map,
          List.append_assoc, List.singleton_append, List.length_cons, e1, e2]

/-- The end of `spi_generic_send_recv` with the result slots `res` above the
slot of `wrote`, `pushed = 1 + |res|` and room on the stack for one more
value: the call returns `wrote` followed by the result slots. -/
theorem send_recv_finish_results {H : Type} (args res : List LuaVal) (wrote : Int)
    (s : State H) (hres : res.length ≤ 18) :
    send_recv_finish (args.length : Int) (args ++ [lua_pushinteger 0] ++ res)
        (toInt32 (1 + (res.length : Int))) wrote s
      = (Outcome.ret (lua_pushinteger wrote :: res), s) := by
  have hstack : args ++ [lua_pushinteger 0] ++ res ++ [lua_pushinteger wrote]
      = args ++ (lua_pushinteger 0 :: (res ++ [lua_pushinteger wrote])) := by simp
  have hidx : index2adr (args ++ (lua_pushinteger 0 :: (res ++ [lua_pushinteger wrote])))
      ((args.length : Int) + 1) = some args.length := by
    unfold index2adr
    have h1 : (0 : Int) < (args.length : Int) + 1 ∧ (args.length : Int) + 1
        ≤ ((args ++ (lua_pushinteger 0 :: (res ++ [lua_pushinteger wrote]))).length : Int) := by
      simp only [List.length_append, List.length_cons, List.length_singleton]
      push_cast
      omega
    rw [if_pos h1]
    congr 1
    omega
  have hlast : (args ++ (lua_pushinteger 0 :: (res ++ [lua_pushinteger wrote]))).getLast?
      = some (lua_pushinteger wrote) := by
    rw [← hstack, List.getLast?_append]
    rfl
  have hset : ((args ++ (lua_pushinteger 0 :: (res ++ [lua_pushinteger wrote]))).set args.length
      (lua_pushinteger wrote)).dropLast = args ++ (lua_pushinteger wrote :: res) := by
    rw [List.set_append_right _ _ (le_refl _)]
    simp only [Nat.sub_self, List.set_cons_zero]
    rw [List.dropLast_append_of_ne_nil _ (by simp)]
    congr 1
    rw [← List.cons_append, List.dropLast_concat]
  have hcount : (toInt32 (1 + (res.length : Int))).toNat = 1 + res.length := by
    rw [toInt32_eq_self _ (by constructor <;> omega)]
    omega
  have hroom : (((args ++ [lua_pushinteger 0] ++ res).length : Nat) : Int)
      < (args.length : Int) + LUA_MINSTACK := by
    simp only [List.length_append, List.length_singleton, LUA_MINSTACK]
    push_cast
    omega
  unfold send_recv_finish lua_replace
  simp only [lua_push, hroom, if_true]
  rw [hstack, hidx, hlast]
  simp only [hset, hcount, List.length_append, List.length_cons]
  have hdrop : args.length + (res.length + 1) - (1 + res.length) = args.length := by omega
  rw [hdrop, List.drop_left]

theorem echo_run_length_le {H : Type} (P : Platform H) (id w : Int) :
    ∀ (items : List Item) (h : H), (echo_run P id w items h).1.length ≤ items.length := by
  intro items
  induction items with
  | nil => intro h; simp [echo_run]
  | cons it its ih =>
    intro h
    cases it with
    | scalar n => simp only [echo_run, List.length_cons]; exact Nat.succ_le_succ (ih _)
    | sequence vals => simp only [echo_run, List.length_cons]; exact Nat.le_succ_of_le (ih _)
    | text bs =>
      simp only [echo_run, List.length_cons]
      split_ifs
      · exact Nat.le_succ_of_le (ih _)
      · simp only [List.length_cons]; exact Nat.succ_le_succ (ih _)

/-- Write_read on items without a non-empty sequence.  For a known port and
every non-empty list of at most 18 scalars, texts and empty sequences, whose
result slots and the final push of the count fit in the `LUA_MINSTACK` slots,
`spi_send_recv` hands the platform exactly the outgoing words of the items, in order, each
with the width stored for the port, and returns the number of units followed
by one result per scalar and per text with bytes, in item order: the echoed
word of a scalar, the string of the low 8 bits of the echoed words of a
text. -/
theorem spi_send_recv_plain {H : Type} (P : Platform H) (s : State H) (id : Int)
    (items : List Item) (hid : id = 0 ∨ id = 1) (hne : items ≠ [])
    (hplain : ∀ it ∈ items, it.plain = true) (hlen : items.length ≤ 18) :
    spi_send_recv P (LuaVal.number id :: items.map Item.toLua) s
      = (Outcome.ret (lua_pushinteger (toU32 ((stream_words items).length : Int)) ::
            (echo_run P id (s.spi_databits id) items s.hw).1),
          { s with hw := (echo_run P id (s.spi_databits id) items s.hw).2,
                   calls := s.calls
                      ++ (stream_words items).map (Call.send_recv id (s.spi_databits id)) }) := by
  have hu : toU32 id = id := by
    unfold toU32; rcases hid with h | h <;> rw [h] <;> decide
  have hex : platform_spi_exists id = true := by
    rcases hid with h | h <;> rw [h] <;> decide
  obtain ⟨it, its, rfl⟩ := List.exists_cons_of_ne_nil hne
  have htos : ¬ (((LuaVal.number id :: (it :: its).map Item.toLua).length : Int) < 2) := by
    simp only [List.length_cons, List.map_cons, List.length_map]
    push_cast
    omega
  have hres := le_trans (echo_run_length_le P id (s.spi_databits id) (it :: its) s.hw) hlen
  have hloop := items_loop_recv P id
    ((LuaVal.number id :: (it :: its).map Item.toLua).length : Int) (it :: its) hplain 2
    ((LuaVal.number id :: (it :: its).map Item.toLua) ++ [lua_pushinteger 0]) 1 0 s
    (by
      rw [List.length_append, List.length_singleton]
      simp only [LUA_MINSTACK]
      push_cast
      omega)
  rw [show toU32 0 = 0 from by decide, show toInt32 1 = 1 from by decide,
    send_recv_finish_results _ _ _ _ hres, zero_add] at hloop
  unfold spi_send_recv spi_generic_send_recv
  simp only [luaL_checkinteger, List.get?, hu, hex, Bool.not_true, Bool.false_eq_true, if_false,
    htos, List.drop]
  exact hloop

end Spi
